import Mathlib

/-!
A shallow embedding of the mcount tracing runtime in src/libmcount/mcount.c:
the per-thread return stack, the entry/exit filter bookkeeping, the
shared-memory buffer ring with its rotation protocol, and the deferred
record emission path.  Pure data is modelled directly; the mutable thread
and global state is threaded explicitly through each function; the external
allocator (shm_open/mmap/realloc) is an oracle stream of booleans; control
messages written to the pipe are accumulated in an output list.
Machine integers are Nat/Int, with an explicit mod 2^64 where the C code
relies on uint64 wraparound.
-/

set_option linter.unusedVariables false

/-- Modelled from the spec: shmem segment flag bit for a freshly allocated
segment (the flag constants live in mcount.h, which is not under src/;
the spec describes the flag as an atomic bitset with states NEW,
RECORDING, WRITTEN). -/
def SHMEM_FL_NEW : Nat := 1

/-- Modelled from the spec: flag bit meaning the consumer should drain the
segment (set by the consumer, outside this code). -/
def SHMEM_FL_WRITTEN : Nat := 2

/-- Modelled from the spec: flag bit meaning the producer is writing. -/
def SHMEM_FL_RECORDING : Nat := 4

/-- Modelled from the spec: rstack-entry flag: its ENTRY record has been
emitted to a buffer (MCOUNT_FL_* constants live in mcount.h, not in src/). -/
def MCOUNT_FL_WRITTEN : Nat := 1

/-- Modelled from the spec: rstack-entry flag: the call is filtered out and
must never be recorded. -/
def MCOUNT_FL_NORECORD : Nat := 2

/-- Modelled from the spec: rstack-entry flag: an include-filter matched. -/
def MCOUNT_FL_FILTERED : Nat := 4

/-- Modelled from the spec: rstack-entry flag: an exclude-filter matched. -/
def MCOUNT_FL_NOTRACE : Nat := 8

/-- Modelled from the spec: rstack-entry flag: argument payload captured. -/
def MCOUNT_FL_ARGUMENT : Nat := 16

/-- Modelled from the spec: rstack-entry flag: capture the return value. -/
def MCOUNT_FL_RETVAL : Nat := 32

/-- Modelled from the spec: rstack-entry flag: force-record this call. -/
def MCOUNT_FL_TRACE : Nat := 64

/-- Modelled from the spec: rstack-entry flag: pushed while tracing was
globally disabled. -/
def MCOUNT_FL_DISABLED : Nat := 128

/-- Modelled from the spec: rstack-entry flag: restore the original return
address during the call. -/
def MCOUNT_FL_RECOVER : Nat := 256

/-- SKIP_FLAGS of record_trace_data: NORECORD | DISABLED. -/
def SKIP_FLAGS : Nat := MCOUNT_FL_NORECORD ||| MCOUNT_FL_DISABLED

/-- Modelled from the spec: sizeof(struct ftrace_ret_stack), the fixed part
of an ENTRY/EXIT/LOST record (the struct lives in a header not under src/;
the spec gives 20 bytes). -/
def FRSTACK_SIZE : Nat := 20

/-- Modelled from the spec: sizeof(struct mcount_shmem_buffer), the header
{ flag, size } preceding the record bytes of a segment. -/
def BUF_HEADER_SIZE : Nat := 8

/-- Modelled from the spec: size of one argument scratch slot. -/
def ARGBUF_SIZE : Nat := 1024

def U64 : Nat := 2 ^ 64

/-- Wrapping uint64 subtraction, as in the C expression
`rstack->end_time - rstack->start_time`. -/
def u64sub (a b : Nat) : Nat := (a % U64 + (U64 - b % U64)) % U64

/-- ALIGN(x, 8) from utils.h. -/
def ALIGN8 (n : Nat) : Nat := (n + 7) / 8 * 8

/-- Clear the single flag bit `b` in `f` (C: `f &= ~b`). -/
def clearBit (f b : Nat) : Nat := f - (f &&& b)

/-- enum filter_mode from utils/filter.h. -/
inductive FilterMode where
  | FILTER_MODE_NONE
  | FILTER_MODE_IN
  | FILTER_MODE_OUT
deriving Repr, DecidableEq

/-- enum filter_result. -/
inductive FilterResult where
  | FILTER_IN
  | FILTER_OUT
deriving Repr, DecidableEq

/-- enum ftrace_ret_stack_type. -/
inductive RecType where
  | FTRACE_ENTRY
  | FTRACE_EXIT
  | FTRACE_LOST
deriving Repr, DecidableEq

/-- One framed record in a shmem segment (struct ftrace_ret_stack on the
wire).  The constant `unused` sentinel byte is not modelled; `more` is the
payload-follows bit.  The LOST record leaves `depth` unassigned in the
source; the model writes 0 there. -/
structure FtraceRecord where
  time : Nat
  type : RecType
  more : Bool
  depth : Nat
  addr : Nat
deriving Repr, DecidableEq

/-- Control messages sent over the pipe (ftrace_send_message).  Segment
names embed the session id and tid via snprintf; the model keys REC_START
and REC_END by the segment index instead. -/
inductive Msg where
  | recStart (idx : Nat)
  | recEnd (idx : Nat)
  | lostMsg (n : Nat)
deriving Repr, DecidableEq

/-- One shared-memory segment: header { flag, size } plus the records
written so far (`recs` models the valid bytes [0, size)). -/
structure ShmemBuffer where
  flag : Nat
  size : Nat
  recs : List FtraceRecord
deriving Repr, DecidableEq

instance : Inhabited ShmemBuffer := ⟨⟨0, 0, []⟩⟩

/-- struct mcount_shmem.  nr_buf is `buffer.length`: the source keeps the
realloc'd pointer array alongside nr_buf and never touches a slot at or
beyond nr_buf, so the list of live segments is an exact model. -/
structure McountShmem where
  buffer : List ShmemBuffer
  curr : Int
  seqnum : Nat
  losts : Nat
  max_buf : Nat
deriving Repr, DecidableEq

/-- struct mcount_ret_stack.  `argbuf` abstracts the thread's argument
scratch slot paired with this frame: it holds the payload size currently
stored there (the leading u32 of the slot).  parent_loc and dyn_idx are
not modelled (raw caller memory / PLT bookkeeping). -/
structure McountRetStack where
  depth : Nat
  parent_ip : Nat
  child_ip : Nat
  start_time : Nat
  end_time : Nat
  flags : Nat
  filter_depth : Int
  argbuf : Nat
deriving Repr, DecidableEq

instance : Inhabited McountRetStack := ⟨⟨0, 0, 0, 0, 0, 0, 0, 0⟩⟩

/-- The per-thread filter state inside mcount_thread_data. -/
structure FilterSt where
  depth : Int
  saved_depth : Int
  in_count : Int
  out_count : Int
deriving Repr, DecidableEq

/-- The result of ftrace_match_filter for one call: the trigger flags and
payload.  The rb-tree lookup itself is out of scope (utils/filter.c); a
theorem quantifying over this structure covers every possible lookup
result.  `argSize` and `retSize` abstract the payload sizes that
save_to_argbuf would produce for the trigger's arg/retval spec. -/
structure FtraceTrigger where
  isFilter : Bool
  fmode : FilterMode
  hasDepth : Bool
  tdepth : Int
  traceOn : Bool
  traceOff : Bool
  hasArg : Bool
  hasRetval : Bool
  hasTrace : Bool
  hasRecover : Bool
  argSize : Nat
  retSize : Nat
deriving Repr, DecidableEq

/-- The thread-local mcount_thread_data plus the mutable globals the hot
path reads and writes (mcount_enabled, mcount_finished), the allocation
oracle and the accumulated pipe messages.  `rstack` holds exactly the
in-flight frames, so idx = rstack.length (the source's preallocated array
is only ever accessed below idx). -/
structure MState where
  rstack : List McountRetStack
  record_idx : Int
  filter : FilterSt
  enable_cached : Bool
  shmem : McountShmem
  enabled : Bool
  finished : Bool
  guard : Bool
  alloc : List Bool
  out : List Msg
deriving Repr, DecidableEq

/-- Tracing runtime configuration fixed at __monstartup time. -/
structure Config where
  threshold : Nat
  depth : Int
  fmode : FilterMode
  rstack_max : Nat
  bufsize : Nat
deriving Repr, DecidableEq

/-- The scan loop at the top of get_new_shmem_buffer: index of the first
segment whose flag has no RECORDING bit. -/
def scanAvail : List ShmemBuffer → Option Nat
  | [] => none
  | b :: rest =>
    if b.flag &&& SHMEM_FL_RECORDING = 0 then some 0
    else (scanAvail rest).map (· + 1)

/-- Number of segments whose flag equals SHMEM_FL_WRITTEN exactly (the
shrink loop's count). -/
def countWritten (bs : List ShmemBuffer) : Nat :=
  (bs.filter (fun b => b.flag = SHMEM_FL_WRITTEN)).length

/-- The "shrink unused buffers" block of get_new_shmem_buffer: after the
counting loop, `b` is the last-inspected segment, i.e. buffer[nr_buf-1]. -/
def shrinkStep (idx : Nat) (bufs : List ShmemBuffer) : List ShmemBuffer :=
  if idx + 3 ≤ bufs.length then
    if countWritten (bufs.drop (idx + 1)) ≥ 3 ∧
       (bufs.getD (bufs.length - 1) default).flag = SHMEM_FL_WRITTEN then
      bufs.dropLast
    else bufs
  else bufs

/-- The code from the `reuse:` label of get_new_shmem_buffer: atomically OR
RECORDING into the segment's flag, bump seqnum, make it current, reset its
size, run the shrink step, send REC_START, and flush `losts` as a LOST
record plus LOST message when nonzero. -/
def reuse_buffer (idx : Nat) (s : MState) : MState :=
  let sh := s.shmem
  let b := sh.buffer.getD idx default
  let bufs1 := sh.buffer.set idx
    { b with flag := b.flag ||| SHMEM_FL_RECORDING, size := 0, recs := [] }
  let bufs2 := shrinkStep idx bufs1
  let sh1 : McountShmem :=
    { sh with buffer := bufs2, seqnum := sh.seqnum + 1, curr := Int.ofNat idx }
  let out1 := s.out ++ [Msg.recStart idx]
  if sh1.losts ≠ 0 then
    let b2 := bufs2.getD idx default
    let lostRec : FtraceRecord :=
      { time := 0, type := RecType.FTRACE_LOST, more := false, depth := 0,
        addr := sh1.losts }
    let bufs3 := bufs2.set idx { b2 with recs := [lostRec], size := FRSTACK_SIZE }
    { s with shmem := { sh1 with buffer := bufs3, losts := 0 },
             out := out1 ++ [Msg.lostMsg sh1.losts] }
  else
    { s with shmem := sh1, out := out1 }

/-- get_new_shmem_buffer: reuse the first segment not being recorded, or
extend the ring by one (allocation modelled by the oracle head), or on
allocation failure count a lost event and mark the ring unwritable. -/
def get_new_shmem_buffer (s : MState) : MState :=
  let sh := s.shmem
  match scanAvail sh.buffer with
  | some idx => reuse_buffer idx s
  | none =>
    let allocOk := s.alloc.headD true
    let s1 := { s with alloc := s.alloc.tail }
    if allocOk then
      let idx := sh.buffer.length
      let fresh : ShmemBuffer := { flag := SHMEM_FL_NEW, size := 0, recs := [] }
      let bufs := sh.buffer ++ [fresh]
      let mb := if bufs.length > sh.max_buf then bufs.length else sh.max_buf
      reuse_buffer idx { s1 with shmem := { sh with buffer := bufs, max_buf := mb } }
    else
      { s1 with shmem := { sh with losts := sh.losts + 1, curr := -1 } }

/-- finish_shmem_buffer: send REC_END for segment `idx`.  It does not touch
the segment or any other state. -/
def finish_shmem_buffer (idx : Nat) (s : MState) : MState :=
  { s with out := s.out ++ [Msg.recEnd idx] }

/-- prepare_shmem_buffer: two fresh segments, segment 0 made current and
marked RECORDING by a plain store, REC_START sent for it. -/
def prepare_shmem_buffer (s : MState) : MState :=
  let fresh : ShmemBuffer := { flag := SHMEM_FL_NEW, size := 0, recs := [] }
  { s with
    shmem := { buffer := [{ fresh with flag := SHMEM_FL_RECORDING }, fresh],
               curr := 0, seqnum := s.shmem.seqnum, losts := s.shmem.losts,
               max_buf := 2 },
    out := s.out ++ [Msg.recStart 0] }

/-- save_argument: store the argument payload for frame `j` and set the
ARGUMENT flag, unless the payload overflows the scratch slot.
save_to_argbuf's traversal of the arg specs over the register snapshot is
abstracted by the resulting payload size `argSize`. -/
def save_argument (j : Nat) (argSize : Nat) (s : MState) : MState :=
  if argSize > ARGBUF_SIZE - 4 then s
  else
    let fr := s.rstack.getD j default
    let fr1 := { fr with argbuf := argSize,
                         flags := fr.flags ||| MCOUNT_FL_ARGUMENT }
    { s with rstack := s.rstack.set j fr1 }

/-- save_retval: store the return-value payload for frame `j`; on overflow
drop the payload and clear the RETVAL flag. -/
def save_retval (j : Nat) (retSize : Nat) (s : MState) : MState :=
  let fr := s.rstack.getD j default
  if retSize > ARGBUF_SIZE - 4 then
    let fr1 := { fr with flags := clearBit fr.flags MCOUNT_FL_RETVAL }
    { s with rstack := s.rstack.set j fr1 }
  else
    { s with rstack := s.rstack.set j { fr with argbuf := retSize } }

/-- record_ret_stack: append one ENTRY/EXIT record (plus its payload bytes)
for frame `j` to the current segment, rotating first when the ring is
unwritable or the record does not fit.  Returns false when rotation fails
(the caller's record is dropped).  Note the source increments `losts` here
on top of the increment already done inside get_new_shmem_buffer's failure
path. -/
def record_ret_stack (cfg : Config) (ty : RecType) (j : Nat) (s : MState) :
    MState × Bool :=
  let mr := s.rstack.getD j default
  let hasArg : Bool :=
    match ty with
    | RecType.FTRACE_ENTRY => decide (mr.flags &&& MCOUNT_FL_ARGUMENT ≠ 0)
    | RecType.FTRACE_EXIT => decide (mr.flags &&& MCOUNT_FL_RETVAL ≠ 0)
    | RecType.FTRACE_LOST => false
  let size := FRSTACK_SIZE + (if hasArg then mr.argbuf else 0)
  let maxsize := cfg.bufsize - BUF_HEADER_SIZE
  let needRotate : Bool :=
    if s.shmem.curr < 0 then true
    else decide ((s.shmem.buffer.getD s.shmem.curr.toNat default).size + size > maxsize)
  let s1 :=
    if needRotate then
      let sA := if s.shmem.curr > -1 then finish_shmem_buffer s.shmem.curr.toNat s else s
      get_new_shmem_buffer sA
    else s
  if s1.shmem.curr < 0 then
    ({ s1 with shmem := { s1.shmem with losts := s1.shmem.losts + 1 } }, false)
  else
    let ci := s1.shmem.curr.toNat
    let cb := s1.shmem.buffer.getD ci default
    let timestamp := match ty with
      | RecType.FTRACE_EXIT => mr.end_time
      | _ => mr.start_time
    let rec1 : FtraceRecord :=
      { time := timestamp, type := ty, more := hasArg, depth := mr.depth,
        addr := mr.child_ip }
    let cb1 := { cb with recs := cb.recs ++ [rec1], size := cb.size + FRSTACK_SIZE }
    let cb2 := if hasArg then { cb1 with size := cb1.size + ALIGN8 mr.argbuf } else cb1
    let mr1 := { mr with flags := mr.flags ||| MCOUNT_FL_WRITTEN }
    ({ s1 with
        shmem := { s1.shmem with buffer := s1.shmem.buffer.set ci cb2 },
        rstack := s1.rstack.set j mr1 }, true)

/-- The backward walk of record_trace_data: starting just below top index
`j`, step down while the next frame below is not yet WRITTEN; returns the
lowest index of the non-written run ending at `j`. -/
def walkLow (rs : List McountRetStack) : Nat → Nat
  | 0 => 0
  | j + 1 =>
    if (rs.getD j default).flags &&& MCOUNT_FL_WRITTEN ≠ 0 then j + 1
    else walkLow rs j

/-- Number of recordable frames (no NORECORD/DISABLED flag) with index in
[lo, j]. -/
def countEligible (rs : List McountRetStack) (lo j : Nat) : Nat :=
  ((List.range' lo (j + 1 - lo)).filter
    (fun k => (rs.getD k default).flags &&& SKIP_FLAGS = 0)).length

/-- The forward walk of record_trace_data over the strict ancestors: emit
an ENTRY record for every recordable frame; on emission failure charge the
records not yet emitted (count - 1) to `losts` and stop.  `count` is at
least 1 whenever the failure branch runs (the failing frame is still
counted), so the Int.toNat clamp is never exercised on calls made by
record_trace_data. -/
def emitEntries (cfg : Config) : List Nat → MState → Int → MState × Int × Bool
  | [], s, count => (s, count, true)
  | k :: rest, s, count =>
    if (s.rstack.getD k default).flags &&& SKIP_FLAGS = 0 then
      match record_ret_stack cfg RecType.FTRACE_ENTRY k s with
      | (s', true) => emitEntries cfg rest s' (count - 1)
      | (s', false) =>
        ({ s' with shmem :=
            { s'.shmem with losts := s'.shmem.losts + (count - 1).toNat } },
         count, false)
    else emitEntries cfg rest s count

/-- record_trace_data: at an exit or forced flush of frame `j`, walk back
over the not-yet-written frames, count the recordable ones (plus one for
the pending EXIT), emit their ENTRY records oldest-first, then the top
frame's ENTRY, then the EXIT with an optional retval payload.  `retval` is
the abstracted retval payload size, or none when no retval pointer is
passed.  The source's guard `mrstack < mtdp->rstack` cannot fire for a Nat
index and is not modelled. -/
def record_trace_data (cfg : Config) (j : Nat) (retval : Option Nat)
    (s : MState) : MState :=
  let top := s.rstack.getD j default
  let low? : Option Nat :=
    if top.flags &&& MCOUNT_FL_WRITTEN = 0 then some (walkLow s.rstack j) else none
  let count0 : Int := match low? with
    | some lo => (countEligible s.rstack lo j : Int)
    | none => 0
  let count1 : Int := count0 + (if top.end_time ≠ 0 then 1 else 0)
  let step1 : MState × Int × Bool := match low? with
    | some lo => emitEntries cfg (List.range' lo (j - lo)) s count1
    | none => (s, count1, true)
  let s1 := step1.1
  let ok1 := step1.2.2
  if ok1 = false then s1
  else
    let count2 := step1.2.1
    let top1 := s1.rstack.getD j default
    let step2 : MState × Int × Bool :=
      if top1.flags &&& (MCOUNT_FL_WRITTEN ||| SKIP_FLAGS) = 0 then
        let r := record_ret_stack cfg RecType.FTRACE_ENTRY j s1
        (r.1, if r.2 then count2 - 1 else count2, r.2)
      else (s1, count2, true)
    let s2 := step2.1
    let ok2 := step2.2.2
    if ok2 = false then s2
    else if top.end_time ≠ 0 then
      let s3 := match retval with
        | some rvs => save_retval j rvs s2
        | none => s2
      (record_ret_stack cfg RecType.FTRACE_EXIT j s3).1
    else s2

/-- mcount_should_stop: modelled from the spec, which has it gate on the
process-wide finished flag and the per-thread recursion guard (the inline
definition lives in mcount.h, not under src/). -/
def mcount_should_stop (s : MState) : Bool := s.finished || s.guard

/-- mcount_entry_filter_check: evaluate the entry-side filter policy for a
call whose trigger lookup produced `tr`.  `none` models the fatal
pr_err_ns on stack overflow.  The state carries the mutations this check
performs (saved depth, in/out counts, depth reset/override, the
TRACE_ON/OFF writes to mcount_enabled, and depth consumption). -/
def mcount_entry_filter_check (cfg : Config) (tr : FtraceTrigger) (s : MState) :
    Option (MState × FilterResult) :=
  if s.rstack.length ≥ cfg.rstack_max then none
  else
    let f0 := { s.filter with saved_depth := s.filter.depth }
    let sA := { s with filter := f0 }
    if f0.out_count > 0 then some (sA, FilterResult.FILTER_OUT)
    else
      let sB :=
        if tr.isFilter then
          let f1 :=
            if tr.fmode = FilterMode.FILTER_MODE_IN then
              { f0 with in_count := f0.in_count + 1 }
            else if tr.fmode = FilterMode.FILTER_MODE_OUT then
              { f0 with out_count := f0.out_count + 1 }
            else f0
          { sA with filter := { f1 with depth := cfg.depth } }
        else sA
      if tr.isFilter = false ∧ cfg.fmode = FilterMode.FILTER_MODE_IN ∧
         sB.filter.in_count = 0 then
        some (sB, FilterResult.FILTER_OUT)
      else
        let sC :=
          if tr.hasDepth then
            { sB with filter := { sB.filter with depth := tr.tdepth } }
          else sB
        let sD := if tr.traceOn then { sC with enabled := true } else sC
        let sE := if tr.traceOff then { sD with enabled := false } else sD
        if sE.enabled = false then some (sE, FilterResult.FILTER_IN)
        else if sE.filter.depth ≤ 0 then some (sE, FilterResult.FILTER_OUT)
        else
          let sF := { sE with filter := { sE.filter with depth := sE.filter.depth - 1 } }
          some (sF, FilterResult.FILTER_IN)

/-- The frame-marking block at the top of mcount_entry_filter_record:
NORECORD from the filter counters, the saved filter depth, and the
FILTERED/NOTRACE/RETVAL/TRACE flags from the trigger. -/
def entry_record_mark (cfg : Config) (tr : FtraceTrigger) (f : FilterSt)
    (fr0 : McountRetStack) : McountRetStack :=
  let fr1 :=
    if f.out_count > 0 ∨
       (f.in_count = 0 ∧ cfg.fmode = FilterMode.FILTER_MODE_IN) then
      { fr0 with flags := fr0.flags ||| MCOUNT_FL_NORECORD }
    else fr0
  let fr2 := { fr1 with filter_depth := f.saved_depth }
  let fr3 :=
    if tr.isFilter then
      if tr.fmode = FilterMode.FILTER_MODE_IN then
        { fr2 with flags := fr2.flags ||| MCOUNT_FL_FILTERED }
      else
        { fr2 with flags := fr2.flags ||| MCOUNT_FL_NOTRACE }
    else fr2
  let fr4 :=
    if tr.hasRetval then { fr3 with flags := fr3.flags ||| MCOUNT_FL_RETVAL }
    else fr3
  if tr.hasTrace then { fr4 with flags := fr4.flags ||| MCOUNT_FL_TRACE }
  else fr4

/-- mcount_entry_filter_record: mark the just-pushed frame `j` from the
filter state and trigger, save the filter depth for restore at exit, and
for recordable frames bump record_idx, mark DISABLED or capture arguments,
flush the stack when tracing was just turned off, and note RECOVER.  The
RECOVER raw-memory work (mcount_restore and rewriting *parent_loc) is
outside the model; only the flag is kept. -/
def mcount_entry_filter_record (cfg : Config) (tr : FtraceTrigger) (j : Nat)
    (s : MState) : MState :=
  let fr5 := entry_record_mark cfg tr s.filter (s.rstack.getD j default)
  let s1 := { s with rstack := s.rstack.set j fr5 }
  if fr5.flags &&& MCOUNT_FL_NORECORD = 0 then
    let s2 := { s1 with record_idx := s1.record_idx + 1 }
    let s3 :=
      if s2.enabled = false then
        let fr6 := s2.rstack.getD j default
        let fr7 := { fr6 with flags := fr6.flags ||| MCOUNT_FL_DISABLED }
        { s2 with rstack := s2.rstack.set j fr7 }
      else if tr.hasArg then save_argument j tr.argSize s2
      else s2
    let s4 :=
      if s3.enable_cached ≠ s3.enabled then
        let s3a := if s3.enabled = false then record_trace_data cfg j none s3 else s3
        { s3a with enable_cached := s3a.enabled }
      else s3
    if tr.hasRecover then
      let fr8 := s4.rstack.getD j default
      let fr9 := { fr8 with flags := fr8.flags ||| MCOUNT_FL_RECOVER }
      { s4 with rstack := s4.rstack.set j fr9 }
    else s4
  else s1

/-- mcount_exit_filter_record: restore the filter depth and in/out counts
saved on frame `j`, and for recordable frames decrement record_idx (only
when positive) and run the emission rule; the returned Bool is true
exactly when record_trace_data was invoked.  The RECOVER re-hijack
(mcount_reset) rewrites saved return addresses in the traced stack and is
outside the model. -/
def mcount_exit_filter_record (cfg : Config) (j : Nat) (retval : Option Nat)
    (s : MState) : MState × Bool :=
  let fr := s.rstack.getD j default
  let s1 : MState :=
    if fr.flags &&& (MCOUNT_FL_FILTERED ||| MCOUNT_FL_NOTRACE ||| MCOUNT_FL_RECOVER) ≠ 0 then
      let f1 :=
        if fr.flags &&& MCOUNT_FL_FILTERED ≠ 0 then
          { s.filter with in_count := s.filter.in_count - 1 }
        else if fr.flags &&& MCOUNT_FL_NOTRACE ≠ 0 then
          { s.filter with out_count := s.filter.out_count - 1 }
        else s.filter
      { s with filter := f1 }
    else s
  let s2 : MState := { s1 with filter := { s1.filter with depth := fr.filter_depth } }
  if fr.flags &&& MCOUNT_FL_NORECORD = 0 then
    let s3 : MState :=
      if s2.record_idx > 0 then { s2 with record_idx := s2.record_idx - 1 }
      else s2
    let retval1 := if fr.flags &&& MCOUNT_FL_RETVAL = 0 then none else retval
    if u64sub fr.end_time fr.start_time > cfg.threshold ∨
       fr.flags &&& (MCOUNT_FL_WRITTEN ||| MCOUNT_FL_TRACE) ≠ 0 then
      if s3.enabled = false then (s3, false)
      else (record_trace_data cfg j retval1 s3, true)
    else (s3, false)
  else (s2, false)

/-- mcount_entry: the mcount-style entry hook.  `none` models the fatal
stack-depth abort; otherwise the pair carries the C return value (-1 when
blocked or filtered out, in which case no frame was pushed and no exit
hook will fire).  The return-address hijack writes *parent_loc, which is
raw caller memory outside the model; parent_ip is kept on the frame.  The
transient recursion_guard set/clear around the body is not represented. -/
def mcount_entry (cfg : Config) (tr : FtraceTrigger) (t parentIp child : Nat)
    (s : MState) : Option (MState × Int) :=
  if mcount_should_stop s then some (s, -1)
  else
    match mcount_entry_filter_check cfg tr s with
    | none => none
    | some (s1, filtered) =>
      if filtered = FilterResult.FILTER_OUT then some (s1, -1)
      else
        let j := s1.rstack.length
        let fr : McountRetStack :=
          { depth := s1.record_idx.toNat, parent_ip := parentIp,
            child_ip := child, start_time := t, end_time := 0, flags := 0,
            filter_depth := 0, argbuf := 0 }
        let s2 := { s1 with rstack := s1.rstack ++ [fr] }
        some (mcount_entry_filter_record cfg tr j s2, 0)

/-- mcount_exit: pop the top frame, stamp its end time, run the exit
filter/record path, and return the saved original return address. -/
def mcount_exit (cfg : Config) (t : Nat) (retval : Option Nat) (s : MState) :
    MState × Nat :=
  let j := s.rstack.length - 1
  let fr := s.rstack.getD j default
  let s1 := { s with rstack := s.rstack.set j { fr with end_time := t } }
  let s2 := (mcount_exit_filter_record cfg j retval s1).1
  ({ s2 with rstack := s2.rstack.dropLast }, fr.parent_ip)

/-- cygprof_entry: the cyg_profile-style entry hook.  Unlike mcount_entry
it pushes a frame even when the filter result is FILTER_OUT, marking it
NORECORD with start_time 0. -/
def cygprof_entry (cfg : Config) (tr : FtraceTrigger) (t parent child : Nat)
    (s : MState) : Option (MState × Int) :=
  if mcount_should_stop s then some (s, -1)
  else
    match mcount_entry_filter_check cfg tr s with
    | none => none
    | some (s1, filtered) =>
      let j := s1.rstack.length
      let fr : McountRetStack :=
        if filtered = FilterResult.FILTER_IN then
          { depth := s1.record_idx.toNat, parent_ip := parent, child_ip := child,
            start_time := t, end_time := 0, flags := 0, filter_depth := 0,
            argbuf := 0 }
        else
          { depth := s1.record_idx.toNat, parent_ip := parent, child_ip := child,
            start_time := 0, end_time := 0, flags := MCOUNT_FL_NORECORD,
            filter_depth := 0, argbuf := 0 }
      let s2 := { s1 with rstack := s1.rstack ++ [fr] }
      some (mcount_entry_filter_record cfg tr j s2, 0)

/-- cygprof_exit: stamp the end time of the top frame unless it is
NORECORD, run the exit filter/record path, and pop the frame. -/
def cygprof_exit (cfg : Config) (t : Nat) (s : MState) : MState :=
  if mcount_should_stop s then s
  else
    let j := s.rstack.length - 1
    let fr := s.rstack.getD j default
    let s1 :=
      if fr.flags &&& MCOUNT_FL_NORECORD = 0 then
        { s with rstack := s.rstack.set j { fr with end_time := t } }
      else s
    let s2 := (mcount_exit_filter_record cfg j none s1).1
    { s2 with rstack := s2.rstack.dropLast }

/-- One instrumentation event hitting an initialized thread. -/
inductive MEvent where
  | ment (tr : FtraceTrigger) (t parentIp child : Nat)
  | mext (t : Nat) (rv : Option Nat)
  | cent (tr : FtraceTrigger) (t parent child : Nat)
  | cext (t : Nat)
deriving Repr, DecidableEq

/-- Apply one event.  A fatal stack-depth abort (`none`) stops the process;
the model keeps the last state. -/
def mstep (cfg : Config) (s : MState) : MEvent → MState
  | MEvent.ment tr t p c =>
    match mcount_entry cfg tr t p c s with
    | some (s', _) => s'
    | none => s
  | MEvent.mext t rv => (mcount_exit cfg t rv s).1
  | MEvent.cent tr t p c =>
    match cygprof_entry cfg tr t p c s with
    | some (s', _) => s'
    | none => s
  | MEvent.cext t => cygprof_exit cfg t s

/-- Run a sequence of events. -/
def runEvents (cfg : Config) (s : MState) (evs : List MEvent) : MState :=
  evs.foldl (mstep cfg) s

/-- The thread state right after mcount_prepare on a fresh thread: empty
stack, zeroed counters (thread-local storage is zero-initialized),
filter depth from the configured default, enable_cached seeded from
mcount_enabled, and the two prepared shmem segments.  `e0` is the initial
mcount_enabled value (FTRACE_DISABLED clears it); `al` the allocation
oracle. -/
def initMState (cfg : Config) (e0 : Bool) (al : List Bool) : MState :=
  prepare_shmem_buffer
    { rstack := [], record_idx := 0,
      filter := { depth := cfg.depth, saved_depth := 0, in_count := 0, out_count := 0 },
      enable_cached := e0,
      shmem := { buffer := [], curr := -1, seqnum := 0, losts := 0, max_buf := 0 },
      enabled := e0, finished := false, guard := false, alloc := al, out := [] }


/-- Bitwise AND distributes over OR on Nat (helper for flag reasoning). -/
theorem natAndOrDistrib (a x y : Nat) : a &&& (x ||| y) = (a &&& x) ||| (a &&& y) := by
  apply Nat.eq_of_testBit_eq
  intro i
  simp [Nat.testBit_and, Nat.testBit_or, Bool.and_or_distrib_left]

/-- A bitwise OR is zero exactly when both sides are (helper for flag
reasoning). -/
theorem natOrZero (u v : Nat) : (u ||| v) = 0 ↔ u = 0 ∧ v = 0 := by
  constructor
  · intro h
    refine ⟨Nat.zero_of_testBit_eq_false fun i => ?_,
            Nat.zero_of_testBit_eq_false fun i => ?_⟩ <;>
    · have hb := congrArg (fun n => Nat.testBit n i) h
      simp [Nat.testBit_or] at hb
      simp [hb]
  · rintro ⟨rfl, rfl⟩
    rfl

/-!
Claim C1 and C9: the emission rule of mcount_exit_filter_record.
-/

/-- C1 counterexample configuration: threshold of 100 ns. -/
def cfgC1 : Config :=
  { threshold := 100, depth := 10, fmode := FilterMode.FILTER_MODE_NONE,
    rstack_max := 1024, bufsize := 128 }

/-- C1 counterexample frame: duration exactly equal to the threshold, no
WRITTEN/TRACE/NORECORD flag. -/
def frC1 : McountRetStack :=
  { depth := 0, parent_ip := 0, child_ip := 10, start_time := 0,
    end_time := 100, flags := 0, filter_depth := 5, argbuf := 0 }

/-- C1 counterexample thread state: tracing enabled, one frame. -/
def sC1 : MState :=
  { rstack := [frC1], record_idx := 1,
    filter := { depth := 3, saved_depth := 0, in_count := 0, out_count := 0 },
    enable_cached := true,
    shmem := { buffer := [{ flag := SHMEM_FL_RECORDING, size := 0, recs := [] }],
               curr := 0, seqnum := 0, losts := 0, max_buf := 1 },
    enabled := true, finished := false, guard := false, alloc := [], out := [] }

/-- C1 counterexample: a non-NORECORD frame whose duration equals
threshold_ns exactly (100 = 100), with WRITTEN and TRACE clear and tracing
enabled, is NOT emitted by the exit path, refuting the claimed
"duration >= threshold_ns" emission rule: the source tests
`end_time - start_time > mcount_threshold` strictly. -/
theorem c1_counterexample :
    frC1.flags &&& MCOUNT_FL_NORECORD = 0 ∧
    u64sub frC1.end_time frC1.start_time ≥ cfgC1.threshold ∧
    frC1.flags &&& (MCOUNT_FL_WRITTEN ||| MCOUNT_FL_TRACE) = 0 ∧
    sC1.enabled = true ∧
    (mcount_exit_filter_record cfgC1 0 none sC1).2 = false := by
  decide

/-- C1 (amended): the exit path invokes the record-emission routine for
frame j if and only if the frame is not NORECORD, AND its wrapped uint64
duration is strictly greater than threshold_ns or its WRITTEN or TRACE
flag is set, AND the global enable flag is true at that moment. -/
theorem c1_emission_rule (cfg : Config) (j : Nat) (rv : Option Nat) (s : MState) :
    (mcount_exit_filter_record cfg j rv s).2 = true ↔
      ((s.rstack.getD j default).flags &&& MCOUNT_FL_NORECORD = 0 ∧
       (u64sub (s.rstack.getD j default).end_time
          (s.rstack.getD j default).start_time > cfg.threshold ∨
        (s.rstack.getD j default).flags &&&
          (MCOUNT_FL_WRITTEN ||| MCOUNT_FL_TRACE) ≠ 0) ∧
       s.enabled = true) := by
  simp only [mcount_exit_filter_record]
  split_ifs <;> simp_all [apply_ite]

/-- C9 concrete state: tracing disabled, a long over-threshold frame with
the TRACE flag, FILTERED set, a saved filter depth of 7. -/
def frC9 : McountRetStack :=
  { depth := 0, parent_ip := 0, child_ip := 20, start_time := 0,
    end_time := 5000, flags := MCOUNT_FL_TRACE ||| MCOUNT_FL_FILTERED,
    filter_depth := 7, argbuf := 0 }

def sC9 : MState :=
  { sC1 with rstack := [frC9], enabled := false,
             filter := { depth := 0, saved_depth := 0, in_count := 3, out_count := 0 } }

set_option maxHeartbeats 1000000 in
/-- C9: at exit of a non-NORECORD frame with mcount_enabled false, nothing
is emitted (no call into record_trace_data, so the shmem ring and the
message stream are untouched) even when the duration/WRITTEN/TRACE
condition holds, while the filter depth and the in/out counters are still
restored from the frame. -/
theorem c9_disabled_no_emit (cfg : Config) (j : Nat) (rv : Option Nat)
    (s : MState)
    (hnr : (s.rstack.getD j default).flags &&& MCOUNT_FL_NORECORD = 0)
    (hdis : s.enabled = false) :
    (mcount_exit_filter_record cfg j rv s).2 = false ∧
    (mcount_exit_filter_record cfg j rv s).1.shmem = s.shmem ∧
    (mcount_exit_filter_record cfg j rv s).1.out = s.out ∧
    (mcount_exit_filter_record cfg j rv s).1.filter.depth =
      (s.rstack.getD j default).filter_depth ∧
    (mcount_exit_filter_record cfg j rv s).1.filter.in_count =
      (if (s.rstack.getD j default).flags &&& MCOUNT_FL_FILTERED ≠ 0 then
        s.filter.in_count - 1 else s.filter.in_count) ∧
    (mcount_exit_filter_record cfg j rv s).1.filter.out_count =
      (if (s.rstack.getD j default).flags &&& MCOUNT_FL_FILTERED = 0 ∧
          (s.rstack.getD j default).flags &&& MCOUNT_FL_NOTRACE ≠ 0 then
        s.filter.out_count - 1 else s.filter.out_count) := by
  by_cases hF : (s.rstack.getD j default).flags &&& MCOUNT_FL_FILTERED = 0 <;>
  by_cases hN : (s.rstack.getD j default).flags &&& MCOUNT_FL_NOTRACE = 0 <;>
  by_cases hR : (s.rstack.getD j default).flags &&& MCOUNT_FL_RECOVER = 0 <;>
  by_cases hri : (0 : Int) < s.record_idx <;>
  (simp only [List.getD_eq_getElem?_getD] at hF hN hR hnr
   simp [mcount_exit_filter_record, natAndOrDistrib, natOrZero, hF, hN, hR, hri, hnr, hdis])

/-- C9 witness: the theorem applied at a concrete disabled state with an
over-threshold TRACE+FILTERED frame. -/
theorem c9_disabled_no_emit_witness :
    (mcount_exit_filter_record cfgC1 0 (some 4) sC9).2 = false ∧
    (mcount_exit_filter_record cfgC1 0 (some 4) sC9).1.shmem = sC9.shmem ∧
    (mcount_exit_filter_record cfgC1 0 (some 4) sC9).1.out = sC9.out ∧
    (mcount_exit_filter_record cfgC1 0 (some 4) sC9).1.filter.depth =
      (sC9.rstack.getD 0 default).filter_depth ∧
    (mcount_exit_filter_record cfgC1 0 (some 4) sC9).1.filter.in_count =
      (if (sC9.rstack.getD 0 default).flags &&& MCOUNT_FL_FILTERED ≠ 0 then
        sC9.filter.in_count - 1 else sC9.filter.in_count) ∧
    (mcount_exit_filter_record cfgC1 0 (some 4) sC9).1.filter.out_count =
      (if (sC9.rstack.getD 0 default).flags &&& MCOUNT_FL_FILTERED = 0 ∧
          (sC9.rstack.getD 0 default).flags &&& MCOUNT_FL_NOTRACE ≠ 0 then
        sC9.filter.out_count - 1 else sC9.filter.out_count) :=
  c9_disabled_no_emit cfgC1 0 (some 4) sC9 (by decide) (by decide)

/-!
List-level helper lemmas and the characterization of the shmem rotation
path (claims C2, C4, C5, C7).
-/

theorem listGetDSetSelf {α : Type} (l : List α) (i : Nat) (x d : α)
    (h : i < l.length) : (l.set i x).getD i d = x := by
  simp [List.getD_eq_getElem?_getD, List.getElem?_set, h]

theorem listGetDSetNe {α : Type} (l : List α) (i k : Nat) (x d : α)
    (h : i ≠ k) : (l.set i x).getD k d = l.getD k d := by
  simp [List.getD_eq_getElem?_getD, List.getElem?_set, h]

theorem listGetDDropLast {α : Type} (l : List α) (i : Nat) (d : α)
    (h : i + 1 < l.length) : l.dropLast.getD i d = l.getD i d := by
  have h2 : i < l.length - 1 := by omega
  simp [List.getD_eq_getElem?_getD, List.getElem?_dropLast, h2,
    List.getElem?_eq_getElem (l := l) (by omega : i < l.length)]

theorem listGetDAppendRight {α : Type} (l : List α) (x d : α) :
    (l ++ [x]).getD l.length d = x := by
  simp [List.getD_eq_getElem?_getD]

theorem listGetDAppendLeft {α : Type} (l l2 : List α) (i : Nat) (d : α)
    (h : i < l.length) : (l ++ l2).getD i d = l.getD i d := by
  simp [List.getD_eq_getElem?_getD, List.getElem?_append, h]

theorem listDropSet {α : Type} : ∀ (l : List α) (i n : Nat) (x : α),
    i < n → (l.set i x).drop n = l.drop n := by
  intro l
  induction l with
  | nil => intro i n x h; simp
  | cons a l ih =>
    intro i n x h
    match i, n with
    | 0, m + 1 => simp
    | i' + 1, m + 1 =>
      simp only [List.set_cons_succ, List.drop_succ_cons]
      exact ih i' m x (by omega)

/-- The scan of get_new_shmem_buffer returns an in-range index. -/
theorem scanAvail_lt : ∀ (bs : List ShmemBuffer) (i : Nat),
    scanAvail bs = some i → i < bs.length := by
  intro bs
  induction bs with
  | nil => intro i h; simp [scanAvail] at h
  | cons b rest ih =>
    intro i h
    simp only [scanAvail] at h
    split at h
    · simp at h
      simp [← h]
    · simp only [Option.map_eq_some'] at h
      obtain ⟨i', hi', rfl⟩ := h
      have := ih i' hi'
      simp
      omega

/-- The segment the scan returns has no RECORDING bit. -/
theorem scanAvail_flag : ∀ (bs : List ShmemBuffer) (i : Nat),
    scanAvail bs = some i →
    (bs.getD i default).flag &&& SHMEM_FL_RECORDING = 0 := by
  intro bs
  induction bs with
  | nil => intro i h; simp [scanAvail] at h
  | cons b rest ih =>
    intro i h
    simp only [scanAvail] at h
    split at h
    · simp at h
      subst h
      simpa [List.getD_cons_zero] using by assumption
    · simp only [Option.map_eq_some'] at h
      obtain ⟨i', hi', rfl⟩ := h
      simpa [List.getD_cons_succ] using ih i' hi'

/-- The scan returns the lowest index whose RECORDING bit is clear. -/
theorem scanAvail_lowest : ∀ (bs : List ShmemBuffer) (i : Nat),
    scanAvail bs = some i → ∀ k, k < i →
    (bs.getD k default).flag &&& SHMEM_FL_RECORDING ≠ 0 := by
  intro bs
  induction bs with
  | nil => intro i h; simp [scanAvail] at h
  | cons b rest ih =>
    intro i h k hk
    simp only [scanAvail] at h
    split at h
    · simp at h
      omega
    · simp only [Option.map_eq_some'] at h
      obtain ⟨i', hi', rfl⟩ := h
      match k with
      | 0 => simpa [List.getD_cons_zero] using by assumption
      | k' + 1 =>
        have := ih i' hi' k' (by omega)
        simpa [List.getD_cons_succ] using this

/-- When the scan fails every segment is being recorded. -/
theorem scanAvail_none : ∀ (bs : List ShmemBuffer),
    scanAvail bs = none → ∀ k, k < bs.length →
    (bs.getD k default).flag &&& SHMEM_FL_RECORDING ≠ 0 := by
  intro bs
  induction bs with
  | nil => intro h k hk; simp at hk
  | cons b rest ih =>
    intro h k hk
    simp only [scanAvail] at h
    split at h
    · simp at h
    · simp only [Option.map_eq_none'] at h
      match k with
      | 0 => simpa [List.getD_cons_zero] using by assumption
      | k' + 1 =>
        have hk2 : k' < rest.length := by simp at hk; omega
        have := ih h k' hk2
        simpa [List.getD_cons_succ] using this

theorem shrinkStep_length (idx : Nat) (bufs : List ShmemBuffer) :
    (shrinkStep idx bufs).length =
      (if idx + 3 ≤ bufs.length ∧ countWritten (bufs.drop (idx + 1)) ≥ 3 ∧
          (bufs.getD (bufs.length - 1) default).flag = SHMEM_FL_WRITTEN
       then bufs.length - 1 else bufs.length) := by
  unfold shrinkStep
  split_ifs with h1 h2 h3 <;> simp_all [List.length_dropLast]

theorem shrinkStep_getD (idx : Nat) (bufs : List ShmemBuffer)
    (h : idx < bufs.length) :
    (shrinkStep idx bufs).getD idx default = bufs.getD idx default := by
  unfold shrinkStep
  split_ifs with h1 h2
  · exact listGetDDropLast bufs idx default (by omega)
  · rfl
  · rfl

theorem shrinkStep_lt (idx : Nat) (bufs : List ShmemBuffer)
    (h : idx < bufs.length) : idx < (shrinkStep idx bufs).length := by
  unfold shrinkStep
  split_ifs with h1 h2
  · simp [List.length_dropLast]; omega
  · exact h
  · exact h

theorem shrinkStep_noop (idx : Nat) (bufs : List ShmemBuffer)
    (h : bufs.length < idx + 3) : shrinkStep idx bufs = bufs := by
  unfold shrinkStep
  rw [if_neg (by omega)]

theorem shrinkStep_getD_any (idx k : Nat) (bufs : List ShmemBuffer)
    (hk : k < (shrinkStep idx bufs).length) :
    (shrinkStep idx bufs).getD k default = bufs.getD k default := by
  unfold shrinkStep at *
  split_ifs at * with h1 h2
  · exact listGetDDropLast _ _ _ (by simp [List.length_dropLast] at hk; omega)
  · rfl
  · rfl

/-- What the reuse label of get_new_shmem_buffer does to the chosen
segment, the counters and the message stream. -/
theorem reuse_buffer_spec (idx : Nat) (s : MState)
    (h : idx < s.shmem.buffer.length) :
    (reuse_buffer idx s).shmem.curr = Int.ofNat idx ∧
    (reuse_buffer idx s).shmem.seqnum = s.shmem.seqnum + 1 ∧
    (reuse_buffer idx s).shmem.losts = 0 ∧
    ((reuse_buffer idx s).shmem.buffer.getD idx default).flag =
      (s.shmem.buffer.getD idx default).flag ||| SHMEM_FL_RECORDING ∧
    ((reuse_buffer idx s).shmem.buffer.getD idx default).size =
      (if s.shmem.losts = 0 then 0 else FRSTACK_SIZE) ∧
    ((reuse_buffer idx s).shmem.buffer.getD idx default).recs =
      (if s.shmem.losts = 0 then [] else
        [{ time := 0, type := RecType.FTRACE_LOST, more := false, depth := 0,
           addr := s.shmem.losts }]) ∧
    (reuse_buffer idx s).out =
      s.out ++ (if s.shmem.losts = 0 then [Msg.recStart idx]
                else [Msg.recStart idx, Msg.lostMsg s.shmem.losts]) := by
  have hset : idx < (s.shmem.buffer.set idx
      { s.shmem.buffer.getD idx default with
        flag := (s.shmem.buffer.getD idx default).flag ||| SHMEM_FL_RECORDING,
        size := 0, recs := [] }).length := by
    simpa using h
  have hshr := shrinkStep_lt idx _ hset
  have hgd := shrinkStep_getD idx (s.shmem.buffer.set idx
      { s.shmem.buffer.getD idx default with
        flag := (s.shmem.buffer.getD idx default).flag ||| SHMEM_FL_RECORDING,
        size := 0, recs := [] }) hset
  have hgds := listGetDSetSelf s.shmem.buffer idx
      { s.shmem.buffer.getD idx default with
        flag := (s.shmem.buffer.getD idx default).flag ||| SHMEM_FL_RECORDING,
        size := 0, recs := [] } default h
  have hgds2 : ∀ x : ShmemBuffer,
      ((shrinkStep idx (s.shmem.buffer.set idx
        { s.shmem.buffer.getD idx default with
          flag := (s.shmem.buffer.getD idx default).flag ||| SHMEM_FL_RECORDING,
          size := 0, recs := [] })).set idx x).getD idx default = x :=
    fun x => listGetDSetSelf _ idx x default hshr
  simp only [List.getD_eq_getElem?_getD] at hgd hgds hgds2
  by_cases hl : s.shmem.losts = 0 <;>
    simp [reuse_buffer, hl, hgd, hgds, hgds2]

theorem reuse_buffer_length (idx : Nat) (s : MState) :
    (reuse_buffer idx s).shmem.buffer.length =
      (shrinkStep idx (s.shmem.buffer.set idx
        { s.shmem.buffer.getD idx default with
          flag := (s.shmem.buffer.getD idx default).flag ||| SHMEM_FL_RECORDING,
          size := 0, recs := [] })).length := by
  by_cases hl : s.shmem.losts = 0 <;> simp [reuse_buffer, hl]

/-- The state after get_new_shmem_buffer extends the ring by one fresh NEW
segment (the realloc-and-allocate path), before falling through to the
reuse label. -/
def extendState (s : MState) : MState :=
  let fresh : ShmemBuffer := { flag := SHMEM_FL_NEW, size := 0, recs := [] }
  let bufs := s.shmem.buffer ++ [fresh]
  let mb := if bufs.length > s.shmem.max_buf then bufs.length else s.shmem.max_buf
  { s with alloc := s.alloc.tail,
           shmem := { s.shmem with buffer := bufs, max_buf := mb } }

/-- The state after get_new_shmem_buffer's allocation-failure path: one
more lost event, ring marked unwritable. -/
def allocFailState (s : MState) : MState :=
  { s with alloc := s.alloc.tail,
           shmem := { s.shmem with losts := s.shmem.losts + 1, curr := -1 } }

/-- get_new_shmem_buffer takes exactly one of three paths: reuse, extend,
or allocation failure. -/
theorem get_new_cases (s : MState) :
    (∃ idx, scanAvail s.shmem.buffer = some idx ∧
        get_new_shmem_buffer s = reuse_buffer idx s) ∨
    (scanAvail s.shmem.buffer = none ∧ s.alloc.headD true = true ∧
        get_new_shmem_buffer s = reuse_buffer s.shmem.buffer.length (extendState s)) ∨
    (scanAvail s.shmem.buffer = none ∧ s.alloc.headD true = false ∧
        get_new_shmem_buffer s = allocFailState s) := by
  cases hsc : scanAvail s.shmem.buffer with
  | some idx =>
    left
    exact ⟨idx, rfl, by simp [get_new_shmem_buffer, hsc]⟩
  | none =>
    right
    cases halloc : s.alloc.headD true with
    | true =>
      left
      refine ⟨rfl, rfl, ?_⟩
      simp only [List.headD_eq_head?_getD] at halloc
      simp [get_new_shmem_buffer, extendState, hsc, halloc]
    | false =>
      right
      refine ⟨rfl, rfl, ?_⟩
      simp only [List.headD_eq_head?_getD] at halloc
      simp [get_new_shmem_buffer, allocFailState, hsc, halloc]

/-- C4: whenever a rotation obtains a writable segment while losts is
nonzero, that segment holds exactly one record: a LOST record with time 0
and addr equal to the accumulated losts count; a REC_START followed by a
LOST control message carrying the count is sent, and losts is reset to 0. -/
theorem c4_lost_record (s : MState) (hl : s.shmem.losts ≠ 0)
    (hc : (get_new_shmem_buffer s).shmem.curr ≠ -1) :
    ((get_new_shmem_buffer s).shmem.buffer.getD
        (get_new_shmem_buffer s).shmem.curr.toNat default).recs =
      [{ time := 0, type := RecType.FTRACE_LOST, more := false, depth := 0,
         addr := s.shmem.losts }] ∧
    ((get_new_shmem_buffer s).shmem.buffer.getD
        (get_new_shmem_buffer s).shmem.curr.toNat default).size = FRSTACK_SIZE ∧
    (get_new_shmem_buffer s).shmem.losts = 0 ∧
    (get_new_shmem_buffer s).out =
      s.out ++ [Msg.recStart (get_new_shmem_buffer s).shmem.curr.toNat,
                Msg.lostMsg s.shmem.losts] := by
  rcases get_new_cases s with ⟨idx, hsc, hg⟩ | ⟨hsc, ha, hg⟩ | ⟨hsc, ha, hg⟩
  · have hlt := scanAvail_lt _ _ hsc
    obtain ⟨hcurr, hseq, hlost, hflag, hsize, hrecs, hout⟩ :=
      reuse_buffer_spec idx s hlt
    rw [hg, hcurr]
    have htn : (Int.ofNat idx).toNat = idx := rfl
    rw [htn]
    simp only [List.getD_eq_getElem?_getD] at hrecs hsize
    simp [hrecs, hsize, hlost, hout, hl]
  · have hlt : s.shmem.buffer.length < (extendState s).shmem.buffer.length := by
      simp [extendState]
    obtain ⟨hcurr, hseq, hlost, hflag, hsize, hrecs, hout⟩ :=
      reuse_buffer_spec s.shmem.buffer.length (extendState s) hlt
    rw [hg, hcurr]
    have htn : (Int.ofNat s.shmem.buffer.length).toNat = s.shmem.buffer.length := rfl
    rw [htn]
    have hsame : (extendState s).shmem.losts = s.shmem.losts := by simp [extendState]
    have hsout : (extendState s).out = s.out := by simp [extendState]
    rw [hsame] at hrecs hsize
    rw [hsame, hsout] at hout
    simp only [List.getD_eq_getElem?_getD] at hrecs hsize
    simp [hrecs, hsize, hlost, hout, hl]
  · rw [hg] at hc
    simp [allocFailState] at hc

/-- C4 witness ring: rotation entered with curr = -1 and 9 lost events;
segment 1 is reusable. -/
def sW4 : MState :=
  { rstack := [], record_idx := 0,
    filter := { depth := 3, saved_depth := 0, in_count := 0, out_count := 0 },
    enable_cached := true,
    shmem := { buffer := [⟨4, 0, []⟩, ⟨2, 0, []⟩], curr := -1, seqnum := 2,
               losts := 9, max_buf := 2 },
    enabled := true, finished := false, guard := false, alloc := [], out := [] }

/-- C4 witness: the theorem applied at a concrete ring with 9 lost
events. -/
theorem c4_lost_record_witness :
    ((get_new_shmem_buffer sW4).shmem.buffer.getD
        (get_new_shmem_buffer sW4).shmem.curr.toNat default).recs =
      [{ time := 0, type := RecType.FTRACE_LOST, more := false, depth := 0,
         addr := sW4.shmem.losts }] ∧
    ((get_new_shmem_buffer sW4).shmem.buffer.getD
        (get_new_shmem_buffer sW4).shmem.curr.toNat default).size = FRSTACK_SIZE ∧
    (get_new_shmem_buffer sW4).shmem.losts = 0 ∧
    (get_new_shmem_buffer sW4).out =
      sW4.out ++ [Msg.recStart (get_new_shmem_buffer sW4).shmem.curr.toNat,
                  Msg.lostMsg sW4.shmem.losts] :=
  c4_lost_record sW4 (by decide) (by decide)

set_option maxHeartbeats 800000 in
/-- C5: get_new_shmem_buffer reuses the lowest-index segment whose flag has
no RECORDING bit (OR-ing RECORDING in, bumping seqnum, resetting size when
no LOST record is due); when every segment is RECORDING it extends the ring
by one segment, and on allocation failure it sets curr to -1 and increments
losts. -/
theorem c5_rotation_reuse (s : MState) (i0 : Nat) :
    (scanAvail s.shmem.buffer = some i0 →
      ((s.shmem.buffer.getD i0 default).flag &&& SHMEM_FL_RECORDING = 0 ∧
       (∀ k, k < i0 →
         (s.shmem.buffer.getD k default).flag &&& SHMEM_FL_RECORDING ≠ 0) ∧
       (get_new_shmem_buffer s).shmem.curr = Int.ofNat i0 ∧
       (get_new_shmem_buffer s).shmem.seqnum = s.shmem.seqnum + 1 ∧
       ((get_new_shmem_buffer s).shmem.buffer.getD i0 default).flag =
         (s.shmem.buffer.getD i0 default).flag ||| SHMEM_FL_RECORDING ∧
       (s.shmem.losts = 0 →
         ((get_new_shmem_buffer s).shmem.buffer.getD i0 default).size = 0))) ∧
    (scanAvail s.shmem.buffer = none → s.alloc.headD true = true →
      ((get_new_shmem_buffer s).shmem.buffer.length = s.shmem.buffer.length + 1 ∧
       (get_new_shmem_buffer s).shmem.curr = Int.ofNat s.shmem.buffer.length ∧
       (get_new_shmem_buffer s).shmem.seqnum = s.shmem.seqnum + 1)) ∧
    (scanAvail s.shmem.buffer = none → s.alloc.headD true = false →
      ((get_new_shmem_buffer s).shmem.curr = -1 ∧
       (get_new_shmem_buffer s).shmem.losts = s.shmem.losts + 1)) := by
  refine ⟨fun hsc => ?_, fun hsc ha => ?_, fun hsc ha => ?_⟩
  · have hg : get_new_shmem_buffer s = reuse_buffer i0 s := by
      simp [get_new_shmem_buffer, hsc]
    have hlt := scanAvail_lt _ _ hsc
    obtain ⟨hcurr, hseq, hlost, hflag, hsize, hrecs, hout⟩ :=
      reuse_buffer_spec i0 s hlt
    refine ⟨scanAvail_flag _ _ hsc, scanAvail_lowest _ _ hsc, ?_, ?_, ?_, ?_⟩
    · rw [hg, hcurr]
    · rw [hg, hseq]
    · rw [hg, hflag]
    · intro hl0
      rw [hg, hsize, if_pos hl0]
  · have hg : get_new_shmem_buffer s =
        reuse_buffer s.shmem.buffer.length (extendState s) := by
      simp only [List.headD_eq_head?_getD] at ha
      simp [get_new_shmem_buffer, extendState, hsc, ha]
    have hlt : s.shmem.buffer.length < (extendState s).shmem.buffer.length := by
      simp [extendState]
    obtain ⟨hcurr, hseq, hlost, hflag, hsize, hrecs, hout⟩ :=
      reuse_buffer_spec s.shmem.buffer.length (extendState s) hlt
    refine ⟨?_, ?_, ?_⟩
    · rw [hg, reuse_buffer_length, shrinkStep_noop _ _ (by simp [extendState])]
      simp [extendState]
    · rw [hg, hcurr]
    · rw [hg, hseq]
      simp [extendState]
  · have hg : get_new_shmem_buffer s = allocFailState s := by
      simp only [List.headD_eq_head?_getD] at ha
      simp [get_new_shmem_buffer, allocFailState, hsc, ha]
    rw [hg]
    simp [allocFailState]

/-- C5 witness ring: segment 0 recording, segment 1 drained, no losts. -/
def sW5 : MState :=
  { rstack := [], record_idx := 0,
    filter := { depth := 3, saved_depth := 0, in_count := 0, out_count := 0 },
    enable_cached := true,
    shmem := { buffer := [⟨4, 5, []⟩, ⟨2, 3, []⟩], curr := 0, seqnum := 4,
               losts := 0, max_buf := 2 },
    enabled := true, finished := false, guard := false, alloc := [], out := [] }

/-- C5 witness: the reuse case of the theorem at a concrete ring where the
lowest non-RECORDING segment is index 1. -/
theorem c5_rotation_reuse_witness :
    (get_new_shmem_buffer sW5).shmem.curr = Int.ofNat 1 ∧
    (get_new_shmem_buffer sW5).shmem.seqnum = sW5.shmem.seqnum + 1 ∧
    ((get_new_shmem_buffer sW5).shmem.buffer.getD 1 default).flag =
      (sW5.shmem.buffer.getD 1 default).flag ||| SHMEM_FL_RECORDING ∧
    ((get_new_shmem_buffer sW5).shmem.buffer.getD 1 default).size = 0 := by
  have h := (c5_rotation_reuse sW5 1).1 (by decide)
  exact ⟨h.2.2.1, h.2.2.2.1, h.2.2.2.2.1, h.2.2.2.2.2 (by decide)⟩

/-- C7 (amended): during a rotation that reuses segment i0, the last
segment is unmapped (and the ring shrinks by one) exactly when i0 + 3 does
not exceed the ring size, at least three segments after i0 are in the
WRITTEN state, and the LAST segment is in the WRITTEN state; the count is
over all segments after i0, not over the trailing run the claim
describes. -/
theorem c7_shrink_policy (s : MState) (i0 : Nat)
    (hsc : scanAvail s.shmem.buffer = some i0) :
    (get_new_shmem_buffer s).shmem.buffer.length =
      (if i0 + 3 ≤ s.shmem.buffer.length ∧
          countWritten (s.shmem.buffer.drop (i0 + 1)) ≥ 3 ∧
          (s.shmem.buffer.getD (s.shmem.buffer.length - 1) default).flag =
            SHMEM_FL_WRITTEN
       then s.shmem.buffer.length - 1 else s.shmem.buffer.length) := by
  have hlt := scanAvail_lt _ _ hsc
  have hg : get_new_shmem_buffer s = reuse_buffer i0 s := by
    simp [get_new_shmem_buffer, hsc]
  rw [hg, reuse_buffer_length, shrinkStep_length]
  have hlen1 : (s.shmem.buffer.set i0
      { s.shmem.buffer.getD i0 default with
        flag := (s.shmem.buffer.getD i0 default).flag ||| SHMEM_FL_RECORDING,
        size := 0, recs := [] }).length = s.shmem.buffer.length := by simp
  by_cases hi : i0 + 3 ≤ s.shmem.buffer.length
  · have hcw : countWritten ((s.shmem.buffer.set i0
        { s.shmem.buffer.getD i0 default with
          flag := (s.shmem.buffer.getD i0 default).flag ||| SHMEM_FL_RECORDING,
          size := 0, recs := [] }).drop (i0 + 1)) =
        countWritten (s.shmem.buffer.drop (i0 + 1)) := by
      rw [listDropSet _ _ _ _ (by omega)]
    have hlast : (s.shmem.buffer.set i0
        { s.shmem.buffer.getD i0 default with
          flag := (s.shmem.buffer.getD i0 default).flag ||| SHMEM_FL_RECORDING,
          size := 0, recs := [] }).getD (s.shmem.buffer.length - 1) default =
        s.shmem.buffer.getD (s.shmem.buffer.length - 1) default := by
      exact listGetDSetNe _ _ _ _ _ (by omega)
    rw [hlen1, hcw, hlast]
  · rw [if_neg (by rw [hlen1]; intro hcon; exact hi hcon.1),
        if_neg (fun hcon => hi hcon.1), hlen1]

/-- C7 counterexample ring: flags [W, W, W, RECORDING, W]; the trailing run
of WRITTEN segments has length 1 (segment 3 is still RECORDING). -/
def sC7 : MState :=
  { rstack := [], record_idx := 0,
    filter := { depth := 3, saved_depth := 0, in_count := 0, out_count := 0 },
    enable_cached := true,
    shmem := { buffer := [⟨2, 0, []⟩, ⟨2, 0, []⟩, ⟨2, 0, []⟩, ⟨4, 0, []⟩, ⟨2, 0, []⟩],
               curr := 3, seqnum := 9, losts := 0, max_buf := 5 },
    enabled := true, finished := false, guard := false, alloc := [], out := [] }

/-- C7 counterexample: fewer than three trailing segments are WRITTEN
(segment 3, next to last, is RECORDING, so the trailing WRITTEN run is just
segment 4), yet the rotation unmaps the last segment and the ring shrinks
from 5 to 4 segments: the source counts WRITTEN segments anywhere after the
reused index and tests the flag of the last segment, not the trailing
run, so the claim's "otherwise the ring size is unchanged" fails here. -/
theorem c7_counterexample :
    (sC7.shmem.buffer.getD 3 default).flag ≠ SHMEM_FL_WRITTEN ∧
    (sC7.shmem.buffer.getD 4 default).flag = SHMEM_FL_WRITTEN ∧
    sC7.shmem.buffer.length = 5 ∧
    (get_new_shmem_buffer sC7).shmem.buffer.length = 4 := by decide

/-- C7 witness: the amended shrink characterization applied at the sC7
ring, where the reused index is 0. -/
theorem c7_shrink_policy_witness :
    (get_new_shmem_buffer sC7).shmem.buffer.length =
      (if 0 + 3 ≤ sC7.shmem.buffer.length ∧
          countWritten (sC7.shmem.buffer.drop (0 + 1)) ≥ 3 ∧
          (sC7.shmem.buffer.getD (sC7.shmem.buffer.length - 1) default).flag =
            SHMEM_FL_WRITTEN
       then sC7.shmem.buffer.length - 1 else sC7.shmem.buffer.length) :=
  c7_shrink_policy sC7 0 (by decide)

theorem reuse_buffer_flag_at (idx k : Nat) (s : MState)
    (hidx : idx < s.shmem.buffer.length)
    (hk : k < (reuse_buffer idx s).shmem.buffer.length) :
    ((reuse_buffer idx s).shmem.buffer.getD k default).flag =
      (if k = idx then
        (s.shmem.buffer.getD idx default).flag ||| SHMEM_FL_RECORDING
       else (s.shmem.buffer.getD k default).flag) := by
  have hx := listGetDSetSelf s.shmem.buffer idx
      { s.shmem.buffer.getD idx default with
        flag := (s.shmem.buffer.getD idx default).flag ||| SHMEM_FL_RECORDING,
        size := 0, recs := [] } default hidx
  by_cases hl : s.shmem.losts = 0
  · have hbufs : (reuse_buffer idx s).shmem.buffer =
        shrinkStep idx (s.shmem.buffer.set idx
          { s.shmem.buffer.getD idx default with
            flag := (s.shmem.buffer.getD idx default).flag ||| SHMEM_FL_RECORDING,
            size := 0, recs := [] }) := by
      simp [reuse_buffer, hl]
    rw [hbufs] at hk ⊢
    rw [shrinkStep_getD_any idx k _ hk]
    by_cases hki : k = idx
    · subst hki
      rw [hx, if_pos rfl]
    · rw [listGetDSetNe _ _ _ _ _ (fun he => hki he.symm), if_neg hki]
  · have hbufs : (reuse_buffer idx s).shmem.buffer =
        (shrinkStep idx (s.shmem.buffer.set idx
          { s.shmem.buffer.getD idx default with
            flag := (s.shmem.buffer.getD idx default).flag ||| SHMEM_FL_RECORDING,
            size := 0, recs := [] })).set idx
          { (shrinkStep idx (s.shmem.buffer.set idx
              { s.shmem.buffer.getD idx default with
                flag := (s.shmem.buffer.getD idx default).flag ||| SHMEM_FL_RECORDING,
                size := 0, recs := [] })).getD idx default with
            recs := [{ time := 0, type := RecType.FTRACE_LOST, more := false,
                       depth := 0, addr := s.shmem.losts }],
            size := FRSTACK_SIZE } := by
      simp [reuse_buffer, hl]
    rw [hbufs] at hk ⊢
    rw [List.length_set] at hk
    by_cases hki : k = idx
    · subst hki
      rw [listGetDSetSelf _ _ _ _ hk]
      rw [shrinkStep_getD_any _ _ _ hk, hx, if_pos rfl]
    · rw [listGetDSetNe _ _ _ _ _ (fun he => hki he.symm)]
      rw [shrinkStep_getD_any _ _ _ hk]
      rw [listGetDSetNe _ _ _ _ _ (fun he => hki he.symm), if_neg hki]

/-- C2 (amended): at every rotation the producer emits REC_END for the
finished segment but leaves every segment flag untouched; the only flag
writes the producer ever performs are the plain NEW and RECORDING stores
at allocation/preparation and the atomic OR of RECORDING at reuse or
extension.  In particular the producer never stores WRITTEN: the
RECORDING-to-WRITTEN transition belongs to the consumer, outside this
code. -/
theorem c2_producer_flag_writes (s : MState) (i : Nat) :
    (finish_shmem_buffer i s).shmem = s.shmem ∧
    (finish_shmem_buffer i s).out = s.out ++ [Msg.recEnd i] ∧
    (prepare_shmem_buffer s).shmem.buffer.length = 2 ∧
    ((prepare_shmem_buffer s).shmem.buffer.getD 0 default).flag =
      SHMEM_FL_RECORDING ∧
    ((prepare_shmem_buffer s).shmem.buffer.getD 1 default).flag = SHMEM_FL_NEW ∧
    (∀ k, k < (get_new_shmem_buffer s).shmem.buffer.length →
      ((get_new_shmem_buffer s).shmem.buffer.getD k default).flag =
        (s.shmem.buffer.getD k default).flag ∨
      ((get_new_shmem_buffer s).shmem.buffer.getD k default).flag =
        (s.shmem.buffer.getD k default).flag ||| SHMEM_FL_RECORDING ∨
      (s.shmem.buffer.length ≤ k ∧
        ((get_new_shmem_buffer s).shmem.buffer.getD k default).flag =
          SHMEM_FL_NEW ||| SHMEM_FL_RECORDING)) := by
  refine ⟨rfl, rfl, rfl, rfl, rfl, ?_⟩
  intro k hk
  rcases get_new_cases s with ⟨idx, hsc, hg⟩ | ⟨hsc, ha, hg⟩ | ⟨hsc, ha, hg⟩
  · rw [hg] at hk ⊢
    have hidx := scanAvail_lt _ _ hsc
    rw [reuse_buffer_flag_at idx k s hidx hk]
    by_cases hki : k = idx
    · right; left
      rw [if_pos hki, hki]
    · left
      rw [if_neg hki]
  · rw [hg] at hk ⊢
    have hidx : s.shmem.buffer.length < (extendState s).shmem.buffer.length := by
      simp [extendState]
    rw [reuse_buffer_flag_at s.shmem.buffer.length k (extendState s) hidx hk]
    by_cases hki : k = s.shmem.buffer.length
    · right; right
      refine ⟨le_of_eq hki.symm, ?_⟩
      rw [if_pos hki]
      have hfresh : ((extendState s).shmem.buffer.getD s.shmem.buffer.length
          default).flag = SHMEM_FL_NEW := by
        have := listGetDAppendRight s.shmem.buffer
          ({ flag := SHMEM_FL_NEW, size := 0, recs := [] } : ShmemBuffer) default
        simp only [extendState]
        simp only [List.getD_eq_getElem?_getD] at this ⊢
        exact congrArg ShmemBuffer.flag this
      rw [hfresh]
    · left
      rw [if_neg hki]
      have hklen : k < s.shmem.buffer.length := by
        have hlen2 : (reuse_buffer s.shmem.buffer.length
            (extendState s)).shmem.buffer.length = s.shmem.buffer.length + 1 := by
          rw [reuse_buffer_length, shrinkStep_noop _ _ (by simp [extendState])]
          simp [extendState]
        rw [hlen2] at hk
        omega
      have hleft := listGetDAppendLeft s.shmem.buffer
        [({ flag := SHMEM_FL_NEW, size := 0, recs := [] } : ShmemBuffer)] k default hklen
      have hext : (extendState s).shmem.buffer.getD k default =
          s.shmem.buffer.getD k default := by
        simp only [extendState]
        simp only [List.getD_eq_getElem?_getD] at hleft ⊢
        exact hleft
      rw [hext]
  · rw [hg]
    left
    rfl

/-- C2 counterexample ring: the current segment 0 is RECORDING, segment 1
has been drained by the consumer (WRITTEN). -/
def sC2 : MState :=
  { rstack := [], record_idx := 0,
    filter := { depth := 3, saved_depth := 0, in_count := 0, out_count := 0 },
    enable_cached := true,
    shmem := { buffer := [⟨4, 7, []⟩, ⟨2, 0, []⟩], curr := 0, seqnum := 1,
               losts := 0, max_buf := 2 },
    enabled := true, finished := false, guard := false, alloc := [], out := [] }

/-- C2 counterexample: rotating away from segment 0 (finish_shmem_buffer
followed by get_new_shmem_buffer, as record_ret_stack does) emits REC_END
for it but leaves its flag equal to RECORDING: the producer never performs
the claimed RECORDING to WRITTEN transition at rotation. -/
theorem c2_counterexample :
    (sC2.shmem.buffer.getD 0 default).flag = SHMEM_FL_RECORDING ∧
    (get_new_shmem_buffer (finish_shmem_buffer 0 sC2)).out =
      [Msg.recEnd 0, Msg.recStart 1] ∧
    ((get_new_shmem_buffer (finish_shmem_buffer 0 sC2)).shmem.buffer.getD 0
        default).flag = SHMEM_FL_RECORDING ∧
    SHMEM_FL_RECORDING ≠ SHMEM_FL_WRITTEN := by decide

/-- C2 witness: the flag-write characterization applied at the sC2 ring
and segment index 1 (the reused one: its flag gains only the RECORDING
bit). -/
theorem c2_producer_flag_writes_witness :
    (finish_shmem_buffer 0 sC2).shmem = sC2.shmem ∧
    (finish_shmem_buffer 0 sC2).out = sC2.out ++ [Msg.recEnd 0] ∧
    (((get_new_shmem_buffer sC2).shmem.buffer.getD 1 default).flag =
        (sC2.shmem.buffer.getD 1 default).flag ∨
      ((get_new_shmem_buffer sC2).shmem.buffer.getD 1 default).flag =
        (sC2.shmem.buffer.getD 1 default).flag ||| SHMEM_FL_RECORDING ∨
      (sC2.shmem.buffer.length ≤ 1 ∧
        ((get_new_shmem_buffer sC2).shmem.buffer.getD 1 default).flag =
          SHMEM_FL_NEW ||| SHMEM_FL_RECORDING)) :=
  ⟨(c2_producer_flag_writes sC2 0).1, (c2_producer_flag_writes sC2 0).2.1,
   (c2_producer_flag_writes sC2 0).2.2.2.2.2 1 (by decide)⟩

/-- The filter verdict of mcount_entry_filter_check (none on the fatal
stack-overflow path). -/
def chkRes (cfg : Config) (tr : FtraceTrigger) (s : MState) : Option FilterResult :=
  (mcount_entry_filter_check cfg tr s).map (fun r => r.2)

/-- The remaining filter depth after mcount_entry_filter_check. -/
def chkDepth (cfg : Config) (tr : FtraceTrigger) (s : MState) : Option Int :=
  (mcount_entry_filter_check cfg tr s).map (fun r => r.1.filter.depth)

/-- The value of mcount_enabled after the TRACE_ON/TRACE_OFF trigger
writes (TRACE_OFF wins, matching the source's ordering). -/
def postEnabled (tr : FtraceTrigger) (e : Bool) : Bool :=
  if tr.traceOff then false else if tr.traceOn then true else e

/-- The filter depth after the FILTER reset and DEPTH override of the
entry check, before any consumption. -/
def postDepth (cfg : Config) (tr : FtraceTrigger) (d : Int) : Int :=
  if tr.hasDepth then tr.tdepth else if tr.isFilter then cfg.depth else d

set_option maxHeartbeats 1600000 in
/-- C6 (amended): the entry filter check follows this chain: with
out_count positive it returns FILTER_OUT before trigger matching, leaving
the depth untouched; next, when no FILTER trigger matched, the global
filter mode is include and in_count is zero, it returns FILTER_OUT (the
case the claim omits); next, if mcount_enabled (as possibly rewritten by
the TRACE_ON/TRACE_OFF trigger flags) is false it returns FILTER_IN
without consuming depth; next, if the (reset/overridden) depth is not
positive it returns FILTER_OUT; otherwise it decrements the depth and
returns FILTER_IN. -/
theorem c6_entry_check_chain (cfg : Config) (tr : FtraceTrigger) (s : MState)
    (hidx : s.rstack.length < cfg.rstack_max) :
    (s.filter.out_count > 0 →
      chkRes cfg tr s = some FilterResult.FILTER_OUT ∧
      chkDepth cfg tr s = some s.filter.depth) ∧
    (s.filter.out_count ≤ 0 → tr.isFilter = false →
      cfg.fmode = FilterMode.FILTER_MODE_IN → s.filter.in_count = 0 →
      chkRes cfg tr s = some FilterResult.FILTER_OUT) ∧
    (s.filter.out_count ≤ 0 →
      (tr.isFilter = true ∨ cfg.fmode ≠ FilterMode.FILTER_MODE_IN ∨
        s.filter.in_count ≠ 0) →
      postEnabled tr s.enabled = false →
      chkRes cfg tr s = some FilterResult.FILTER_IN ∧
      chkDepth cfg tr s = some (postDepth cfg tr s.filter.depth)) ∧
    (s.filter.out_count ≤ 0 →
      (tr.isFilter = true ∨ cfg.fmode ≠ FilterMode.FILTER_MODE_IN ∨
        s.filter.in_count ≠ 0) →
      postEnabled tr s.enabled = true → postDepth cfg tr s.filter.depth ≤ 0 →
      chkRes cfg tr s = some FilterResult.FILTER_OUT ∧
      chkDepth cfg tr s = some (postDepth cfg tr s.filter.depth)) ∧
    (s.filter.out_count ≤ 0 →
      (tr.isFilter = true ∨ cfg.fmode ≠ FilterMode.FILTER_MODE_IN ∨
        s.filter.in_count ≠ 0) →
      postEnabled tr s.enabled = true → postDepth cfg tr s.filter.depth > 0 →
      chkRes cfg tr s = some FilterResult.FILTER_IN ∧
      chkDepth cfg tr s = some (postDepth cfg tr s.filter.depth - 1)) := by
  have hidx' : ¬ (s.rstack.length ≥ cfg.rstack_max) := by omega
  refine ⟨?_, ?_, ?_, ?_, ?_⟩
  · intro h
    simp [chkRes, chkDepth, mcount_entry_filter_check, hidx', h]
  · intro h1 h2 h3 h4
    have hoF : (0 < s.filter.out_count) = False := eq_false (by omega)
    simp [chkRes, mcount_entry_filter_check, hidx', hoF, h2, h3, h4]
  · intro h1 h2 h3
    have hoF : (0 < s.filter.out_count) = False := eq_false (by omega)
    cases hIF : tr.isFilter with
    | false =>
      have hincF : (cfg.fmode = FilterMode.FILTER_MODE_IN ∧
          s.filter.in_count = 0) = False := by
        refine eq_false ?_
        rcases h2 with h2 | h2 | h2
        · rw [hIF] at h2; exact absurd h2 (by simp)
        · tauto
        · tauto
      cases hOff : tr.traceOff with
      | true =>
        cases hD : tr.hasDepth <;>
          simp [chkRes, chkDepth, mcount_entry_filter_check, postDepth, hidx',
            hoF, hincF, hIF, hOff, hD,
            apply_ite MState.filter, apply_ite FilterSt.depth, ite_self]
      | false =>
        cases hOn : tr.traceOn with
        | true => simp [postEnabled, hOff, hOn] at h3
        | false =>
          have h3' : s.enabled = false := by
            simpa [postEnabled, hOff, hOn] using h3
          cases hD : tr.hasDepth <;>
            simp [chkRes, chkDepth, mcount_entry_filter_check, postDepth, hidx',
              hoF, hincF, hIF, hOff, hOn, hD, h3',
              apply_ite MState.filter, apply_ite FilterSt.depth, ite_self]
    | true =>
      cases hOff : tr.traceOff with
      | true =>
        cases hD : tr.hasDepth <;>
          simp [chkRes, chkDepth, mcount_entry_filter_check, postDepth, hidx',
            hoF, hIF, hOff, hD, apply_ite MState.filter, apply_ite FilterSt.depth, ite_self]
      | false =>
        cases hOn : tr.traceOn with
        | true => simp [postEnabled, hOff, hOn] at h3
        | false =>
          have h3' : s.enabled = false := by
            simpa [postEnabled, hOff, hOn] using h3
          cases hD : tr.hasDepth <;>
            simp [chkRes, chkDepth, mcount_entry_filter_check, postDepth, hidx',
              hoF, hIF, hOff, hOn, hD, h3', apply_ite MState.filter, apply_ite FilterSt.depth, ite_self]
  · intro h1 h2 h3 h4
    have hoF : (0 < s.filter.out_count) = False := eq_false (by omega)
    have h4' : postDepth cfg tr s.filter.depth ≤ 0 := h4
    cases hIF : tr.isFilter with
    | false =>
      have hincF : (cfg.fmode = FilterMode.FILTER_MODE_IN ∧
          s.filter.in_count = 0) = False := by
        refine eq_false ?_
        rcases h2 with h2 | h2 | h2
        · rw [hIF] at h2; exact absurd h2 (by simp)
        · tauto
        · tauto
      have h3' : postEnabled tr s.enabled = true := h3
      cases hOff : tr.traceOff with
      | true => simp [postEnabled, hOff] at h3'
      | false =>
        cases hOn : tr.traceOn <;> cases hD : tr.hasDepth <;>
          (simp [postEnabled, hOff, hOn] at h3'
           all_goals (simp [postDepth, hIF, hD] at h4'
                      all_goals simp [chkRes, chkDepth, mcount_entry_filter_check,
                        postDepth, hidx', hoF, hincF, hIF, hOff, hOn, hD, h3', h4',
                        apply_ite MState.filter, apply_ite FilterSt.depth, ite_self]))
    | true =>
      have h3' : postEnabled tr s.enabled = true := h3
      cases hOff : tr.traceOff with
      | true => simp [postEnabled, hOff] at h3'
      | false =>
        cases hOn : tr.traceOn <;> cases hD : tr.hasDepth <;>
          (simp [postEnabled, hOff, hOn] at h3'
           all_goals (simp [postDepth, hIF, hD] at h4'
                      all_goals simp [chkRes, chkDepth, mcount_entry_filter_check,
                        postDepth, hidx', hoF, hIF, hOff, hOn, hD, h3', h4',
                        apply_ite MState.filter, apply_ite FilterSt.depth, ite_self]))
  · intro h1 h2 h3 h4
    have hoF : (0 < s.filter.out_count) = False := eq_false (by omega)
    have h4' : ¬ (postDepth cfg tr s.filter.depth ≤ 0) := by omega
    cases hIF : tr.isFilter with
    | false =>
      have hincF : (cfg.fmode = FilterMode.FILTER_MODE_IN ∧
          s.filter.in_count = 0) = False := by
        refine eq_false ?_
        rcases h2 with h2 | h2 | h2
        · rw [hIF] at h2; exact absurd h2 (by simp)
        · tauto
        · tauto
      have h3' : postEnabled tr s.enabled = true := h3
      cases hOff : tr.traceOff with
      | true => simp [postEnabled, hOff] at h3'
      | false =>
        cases hOn : tr.traceOn <;> cases hD : tr.hasDepth <;>
          (simp [postEnabled, hOff, hOn] at h3'
           all_goals (simp [postDepth, hIF, hD] at h4'
                      all_goals (have h4x : ∀ y : Int, 0 < y → (y ≤ 0) = False :=
                                   fun y hy => eq_false (by omega)
                                 simp [chkRes, chkDepth, mcount_entry_filter_check,
                                   postDepth, hidx', hoF, hincF, hIF, hOff, hOn, hD, h3',
                                   h4x _ h4', apply_ite MState.filter,
                                   apply_ite FilterSt.depth, ite_self])))
    | true =>
      have h3' : postEnabled tr s.enabled = true := h3
      cases hOff : tr.traceOff with
      | true => simp [postEnabled, hOff] at h3'
      | false =>
        cases hOn : tr.traceOn <;> cases hD : tr.hasDepth <;>
          (simp [postEnabled, hOff, hOn] at h3'
           all_goals (simp [postDepth, hIF, hD] at h4'
                      all_goals (have h4x : ∀ y : Int, 0 < y → (y ≤ 0) = False :=
                                   fun y hy => eq_false (by omega)
                                 simp [chkRes, chkDepth, mcount_entry_filter_check,
                                   postDepth, hidx', hoF, hIF, hOff, hOn, hD, h3',
                                   h4x _ h4', apply_ite MState.filter,
                                   apply_ite FilterSt.depth, ite_self])))

/-- C6 counterexample configuration: include-mode filtering with default
depth 10. -/
def cfgC6 : Config :=
  { threshold := 0, depth := 10, fmode := FilterMode.FILTER_MODE_IN,
    rstack_max := 64, bufsize := 128 }

/-- A trigger lookup that matched nothing. -/
def trC6 : FtraceTrigger :=
  { isFilter := false, fmode := FilterMode.FILTER_MODE_NONE, hasDepth := false,
    tdepth := 0, traceOn := false, traceOff := false, hasArg := false,
    hasRetval := false, hasTrace := false, hasRecover := false,
    argSize := 0, retSize := 0 }

/-- C6 counterexample thread state: no exclusion active, tracing enabled,
plenty of depth left. -/
def sC6 : MState :=
  { rstack := [], record_idx := 0,
    filter := { depth := 3, saved_depth := 0, in_count := 0, out_count := 0 },
    enable_cached := true,
    shmem := { buffer := [⟨4, 0, []⟩], curr := 0, seqnum := 0, losts := 0,
               max_buf := 1 },
    enabled := true, finished := false, guard := false, alloc := [], out := [] }

/-- C6 counterexample: with out_count = 0, the enable flag true and a
positive remaining depth, the claim's chain predicts FILTER_IN with the
depth consumed, but the source returns FILTER_OUT through the include-mode
check (no trigger matched, global filter mode include, in_count = 0),
which sits between the out_count test and the enable/depth tests and is
missing from the claim. -/
theorem c6_counterexample :
    sC6.filter.out_count = 0 ∧ sC6.enabled = true ∧ sC6.filter.depth = 3 ∧
    chkRes cfgC6 trC6 sC6 = some FilterResult.FILTER_OUT := by decide

/-- C6 witness configuration: no global filter mode. -/
def cfgW6 : Config :=
  { threshold := 0, depth := 10, fmode := FilterMode.FILTER_MODE_NONE,
    rstack_max := 64, bufsize := 128 }

/-- C6 witness: the final link of the chain at a concrete state: depth 3
is positive, so the check consumes one level and lets the call through. -/
theorem c6_entry_check_chain_witness :
    chkRes cfgW6 trC6 sC6 = some FilterResult.FILTER_IN ∧
    chkDepth cfgW6 trC6 sC6 = some (postDepth cfgW6 trC6 sC6.filter.depth - 1) :=
  (c6_entry_check_chain cfgW6 trC6 sC6 (by decide)).2.2.2.2
    (by decide) (by decide) (by decide) (by decide)

/-! ### Environment-preservation lemmas

Each runtime operation in the shmem/record layer leaves the control fields of
the thread state (return stack length, `record_idx`, the finished/guard flags,
the cached-enable flag and the filter state) untouched except where the source
explicitly writes them.  These lemmas are shared by the stack-discipline and
non-negativity claims. -/


theorem reuse_buffer_env (idx : Nat) (s : MState) :
    (reuse_buffer idx s).rstack = s.rstack ∧
    (reuse_buffer idx s).record_idx = s.record_idx ∧
    (reuse_buffer idx s).finished = s.finished ∧
    (reuse_buffer idx s).guard = s.guard ∧
    (reuse_buffer idx s).enabled = s.enabled ∧
    (reuse_buffer idx s).enable_cached = s.enable_cached ∧
    (reuse_buffer idx s).filter = s.filter := by
  by_cases hl : s.shmem.losts = 0 <;> simp [reuse_buffer, hl]

theorem get_new_env (s : MState) :
    (get_new_shmem_buffer s).rstack = s.rstack ∧
    (get_new_shmem_buffer s).record_idx = s.record_idx ∧
    (get_new_shmem_buffer s).finished = s.finished ∧
    (get_new_shmem_buffer s).guard = s.guard ∧
    (get_new_shmem_buffer s).enabled = s.enabled ∧
    (get_new_shmem_buffer s).enable_cached = s.enable_cached ∧
    (get_new_shmem_buffer s).filter = s.filter := by
  rcases get_new_cases s with ⟨idx, _, hg⟩ | ⟨_, _, hg⟩ | ⟨_, _, hg⟩ <;> rw [hg]
  · exact reuse_buffer_env idx s
  · have h := reuse_buffer_env s.shmem.buffer.length (extendState s)
    simpa [extendState] using h
  · simp [allocFailState]

theorem record_ret_stack_env (cfg : Config) (ty : RecType) (j : Nat) (s : MState) :
    (record_ret_stack cfg ty j s).1.rstack.length = s.rstack.length ∧
    (record_ret_stack cfg ty j s).1.record_idx = s.record_idx ∧
    (record_ret_stack cfg ty j s).1.finished = s.finished ∧
    (record_ret_stack cfg ty j s).1.guard = s.guard ∧
    (record_ret_stack cfg ty j s).1.enabled = s.enabled ∧
    (record_ret_stack cfg ty j s).1.enable_cached = s.enable_cached ∧
    (record_ret_stack cfg ty j s).1.filter = s.filter := by
  have hge := get_new_env (finish_shmem_buffer s.shmem.curr.toNat s)
  have hge2 := get_new_env s
  simp only [record_ret_stack, finish_shmem_buffer] at *
  split_ifs <;>
    simp_all [List.length_set, apply_ite MState.rstack, apply_ite MState.record_idx,
      apply_ite MState.finished, apply_ite MState.guard, apply_ite MState.enabled,
      apply_ite MState.enable_cached, apply_ite MState.filter, apply_ite List.length,
      ite_self]

theorem save_argument_env (j argSize : Nat) (s : MState) :
    (save_argument j argSize s).rstack.length = s.rstack.length ∧
    (save_argument j argSize s).record_idx = s.record_idx ∧
    (save_argument j argSize s).finished = s.finished ∧
    (save_argument j argSize s).guard = s.guard ∧
    (save_argument j argSize s).enabled = s.enabled ∧
    (save_argument j argSize s).enable_cached = s.enable_cached ∧
    (save_argument j argSize s).filter = s.filter := by
  unfold save_argument
  split_ifs <;> simp

theorem save_retval_env (j retSize : Nat) (s : MState) :
    (save_retval j retSize s).rstack.length = s.rstack.length ∧
    (save_retval j retSize s).record_idx = s.record_idx ∧
    (save_retval j retSize s).finished = s.finished ∧
    (save_retval j retSize s).guard = s.guard ∧
    (save_retval j retSize s).enabled = s.enabled ∧
    (save_retval j retSize s).enable_cached = s.enable_cached ∧
    (save_retval j retSize s).filter = s.filter := by
  unfold save_retval
  split_ifs <;> simp

theorem emitEntries_env (cfg : Config) : ∀ (ks : List Nat) (s : MState) (c : Int),
    (emitEntries cfg ks s c).1.rstack.length = s.rstack.length ∧
    (emitEntries cfg ks s c).1.record_idx = s.record_idx ∧
    (emitEntries cfg ks s c).1.finished = s.finished ∧
    (emitEntries cfg ks s c).1.guard = s.guard ∧
    (emitEntries cfg ks s c).1.enabled = s.enabled ∧
    (emitEntries cfg ks s c).1.enable_cached = s.enable_cached ∧
    (emitEntries cfg ks s c).1.filter = s.filter := by
  intro ks
  induction ks with
  | nil => intro s c; simp [emitEntries]
  | cons k rest ih =>
    intro s c
    simp only [emitEntries]
    split_ifs with h1
    · rcases hr : record_ret_stack cfg RecType.FTRACE_ENTRY k s with ⟨s', ok⟩
      have henv := record_ret_stack_env cfg RecType.FTRACE_ENTRY k s
      rw [hr] at henv
      cases ok
      · simpa using henv
      · have := ih s' (c - 1)
        simp only []
        constructor
        · rw [(this).1, henv.1]
        constructor
        · rw [(this).2.1, henv.2.1]
        constructor
        · rw [(this).2.2.1, henv.2.2.1]
        constructor
        · rw [(this).2.2.2.1, henv.2.2.2.1]
        constructor
        · rw [(this).2.2.2.2.1, henv.2.2.2.2.1]
        constructor
        · rw [(this).2.2.2.2.2.1, henv.2.2.2.2.2.1]
        · rw [(this).2.2.2.2.2.2, henv.2.2.2.2.2.2]
    · exact ih s c

theorem record_trace_data_env (cfg : Config) (j : Nat) (rv : Option Nat)
    (s : MState) :
    (record_trace_data cfg j rv s).rstack.length = s.rstack.length ∧
    (record_trace_data cfg j rv s).record_idx = s.record_idx ∧
    (record_trace_data cfg j rv s).finished = s.finished ∧
    (record_trace_data cfg j rv s).guard = s.guard ∧
    (record_trace_data cfg j rv s).enabled = s.enabled ∧
    (record_trace_data cfg j rv s).enable_cached = s.enable_cached ∧
    (record_trace_data cfg j rv s).filter = s.filter := by
  have hrr1 : ∀ ty k st, (record_ret_stack cfg ty k st).1.rstack.length = st.rstack.length :=
    fun ty k st => (record_ret_stack_env cfg ty k st).1
  have hrr2 : ∀ ty k st, (record_ret_stack cfg ty k st).1.record_idx = st.record_idx :=
    fun ty k st => (record_ret_stack_env cfg ty k st).2.1
  have hrr3 : ∀ ty k st, (record_ret_stack cfg ty k st).1.finished = st.finished :=
    fun ty k st => (record_ret_stack_env cfg ty k st).2.2.1
  have hrr4 : ∀ ty k st, (record_ret_stack cfg ty k st).1.guard = st.guard :=
    fun ty k st => (record_ret_stack_env cfg ty k st).2.2.2.1
  have hrr5 : ∀ ty k st, (record_ret_stack cfg ty k st).1.enabled = st.enabled :=
    fun ty k st => (record_ret_stack_env cfg ty k st).2.2.2.2.1
  have hrr6 : ∀ ty k st, (record_ret_stack cfg ty k st).1.enable_cached = st.enable_cached :=
    fun ty k st => (record_ret_stack_env cfg ty k st).2.2.2.2.2.1
  have hrr7 : ∀ ty k st, (record_ret_stack cfg ty k st).1.filter = st.filter :=
    fun ty k st => (record_ret_stack_env cfg ty k st).2.2.2.2.2.2
  have hee1 : ∀ ks st c, (emitEntries cfg ks st c).1.rstack.length = st.rstack.length :=
    fun ks st c => (emitEntries_env cfg ks st c).1
  have hee2 : ∀ ks st c, (emitEntries cfg ks st c).1.record_idx = st.record_idx :=
    fun ks st c => (emitEntries_env cfg ks st c).2.1
  have hee3 : ∀ ks st c, (emitEntries cfg ks st c).1.finished = st.finished :=
    fun ks st c => (emitEntries_env cfg ks st c).2.2.1
  have hee4 : ∀ ks st c, (emitEntries cfg ks st c).1.guard = st.guard :=
    fun ks st c => (emitEntries_env cfg ks st c).2.2.2.1
  have hee5 : ∀ ks st c, (emitEntries cfg ks st c).1.enabled = st.enabled :=
    fun ks st c => (emitEntries_env cfg ks st c).2.2.2.2.1
  have hee6 : ∀ ks st c, (emitEntries cfg ks st c).1.enable_cached = st.enable_cached :=
    fun ks st c => (emitEntries_env cfg ks st c).2.2.2.2.2.1
  have hee7 : ∀ ks st c, (emitEntries cfg ks st c).1.filter = st.filter :=
    fun ks st c => (emitEntries_env cfg ks st c).2.2.2.2.2.2
  have hsv1 : ∀ k r st, (save_retval k r st).rstack.length = st.rstack.length :=
    fun k r st => (save_retval_env k r st).1
  have hsv2 : ∀ k r st, (save_retval k r st).record_idx = st.record_idx :=
    fun k r st => (save_retval_env k r st).2.1
  have hsv3 : ∀ k r st, (save_retval k r st).finished = st.finished :=
    fun k r st => (save_retval_env k r st).2.2.1
  have hsv4 : ∀ k r st, (save_retval k r st).guard = st.guard :=
    fun k r st => (save_retval_env k r st).2.2.2.1
  have hsv5 : ∀ k r st, (save_retval k r st).enabled = st.enabled :=
    fun k r st => (save_retval_env k r st).2.2.2.2.1
  have hsv6 : ∀ k r st, (save_retval k r st).enable_cached = st.enable_cached :=
    fun k r st => (save_retval_env k r st).2.2.2.2.2.1
  have hsv7 : ∀ k r st, (save_retval k r st).filter = st.filter :=
    fun k r st => (save_retval_env k r st).2.2.2.2.2.2
  cases rv <;>
  by_cases hw : (s.rstack.getD j default).flags &&& MCOUNT_FL_WRITTEN = 0 <;>
    simp only [List.getD_eq_getElem?_getD] at hw <;>
    simp [record_trace_data, hw, hrr1, hrr2, hrr3, hrr4, hrr5, hrr6, hrr7,
      hee1, hee2, hee3, hee4, hee5, hee6, hee7, hsv1, hsv2, hsv3, hsv4, hsv5,
      hsv6, hsv7, apply_ite MState.rstack, apply_ite MState.record_idx,
      apply_ite MState.finished, apply_ite MState.guard, apply_ite MState.enabled,
      apply_ite MState.enable_cached, apply_ite MState.filter,
      apply_ite List.length, apply_ite Prod.fst, apply_ite Prod.snd, ite_self]


set_option maxHeartbeats 1000000 in
theorem mcount_entry_filter_record_env (cfg : Config) (tr : FtraceTrigger)
    (j : Nat) (s : MState) :
    (mcount_entry_filter_record cfg tr j s).rstack.length = s.rstack.length ∧
    ((mcount_entry_filter_record cfg tr j s).record_idx = s.record_idx ∨
     (mcount_entry_filter_record cfg tr j s).record_idx = s.record_idx + 1) ∧
    (mcount_entry_filter_record cfg tr j s).finished = s.finished ∧
    (mcount_entry_filter_record cfg tr j s).guard = s.guard := by
  have hrt1 : ∀ k r st, (record_trace_data cfg k r st).rstack.length = st.rstack.length :=
    fun k r st => (record_trace_data_env cfg k r st).1
  have hrt2 : ∀ k r st, (record_trace_data cfg k r st).record_idx = st.record_idx :=
    fun k r st => (record_trace_data_env cfg k r st).2.1
  have hrt3 : ∀ k r st, (record_trace_data cfg k r st).finished = st.finished :=
    fun k r st => (record_trace_data_env cfg k r st).2.2.1
  have hrt4 : ∀ k r st, (record_trace_data cfg k r st).guard = st.guard :=
    fun k r st => (record_trace_data_env cfg k r st).2.2.2.1
  have hrt5 : ∀ k r st, (record_trace_data cfg k r st).enabled = st.enabled :=
    fun k r st => (record_trace_data_env cfg k r st).2.2.2.2.1
  have hsa1 : ∀ k a st, (save_argument k a st).rstack.length = st.rstack.length :=
    fun k a st => (save_argument_env k a st).1
  have hsa2 : ∀ k a st, (save_argument k a st).record_idx = st.record_idx :=
    fun k a st => (save_argument_env k a st).2.1
  have hsa3 : ∀ k a st, (save_argument k a st).finished = st.finished :=
    fun k a st => (save_argument_env k a st).2.2.1
  have hsa4 : ∀ k a st, (save_argument k a st).guard = st.guard :=
    fun k a st => (save_argument_env k a st).2.2.2.1
  have hsa5 : ∀ k a st, (save_argument k a st).enabled = st.enabled :=
    fun k a st => (save_argument_env k a st).2.2.2.2.1
  by_cases hnr : (entry_record_mark cfg tr s.filter
      (s.rstack.getD j default)).flags &&& MCOUNT_FL_NORECORD = 0 <;>
    simp only [List.getD_eq_getElem?_getD] at hnr <;>
    simp [mcount_entry_filter_record, hnr, hrt1, hrt2, hrt3, hrt4, hrt5, hsa1,
      hsa2, hsa3, hsa4, hsa5, List.length_set, apply_ite MState.rstack,
      apply_ite MState.record_idx, apply_ite MState.finished,
      apply_ite MState.guard, apply_ite List.length, ite_self]

set_option maxHeartbeats 1000000 in
theorem mcount_exit_filter_record_env (cfg : Config) (j : Nat) (rv : Option Nat)
    (s : MState) :
    (mcount_exit_filter_record cfg j rv s).1.rstack.length = s.rstack.length ∧
    (mcount_exit_filter_record cfg j rv s).1.finished = s.finished ∧
    (mcount_exit_filter_record cfg j rv s).1.guard = s.guard ∧
    (0 ≤ s.record_idx → 0 ≤ (mcount_exit_filter_record cfg j rv s).1.record_idx) := by
  have hrt1 : ∀ k r st, (record_trace_data cfg k r st).rstack.length = st.rstack.length :=
    fun k r st => (record_trace_data_env cfg k r st).1
  have hrt2 : ∀ k r st, (record_trace_data cfg k r st).record_idx = st.record_idx :=
    fun k r st => (record_trace_data_env cfg k r st).2.1
  have hrt3 : ∀ k r st, (record_trace_data cfg k r st).finished = st.finished :=
    fun k r st => (record_trace_data_env cfg k r st).2.2.1
  have hrt4 : ∀ k r st, (record_trace_data cfg k r st).guard = st.guard :=
    fun k r st => (record_trace_data_env cfg k r st).2.2.2.1
  simp only [mcount_exit_filter_record]
  split_ifs <;>
    simp_all [hrt1, hrt2, hrt3, hrt4, apply_ite MState.rstack,
      apply_ite MState.record_idx, apply_ite MState.finished,
      apply_ite MState.guard, apply_ite List.length, ite_self] <;>
    omega

set_option maxHeartbeats 2000000 in
theorem mcount_entry_filter_check_env (cfg : Config) (tr : FtraceTrigger)
    (s : MState) :
    ∀ p, mcount_entry_filter_check cfg tr s = some p →
      p.1.rstack = s.rstack ∧ p.1.record_idx = s.record_idx ∧
      p.1.finished = s.finished ∧ p.1.guard = s.guard := by
  intro p hp
  by_cases hlen : s.rstack.length ≥ cfg.rstack_max
  · simp [mcount_entry_filter_check, hlen] at hp
  by_cases h1 : s.filter.out_count > 0
  · simp [mcount_entry_filter_check, hlen, h1] at hp
    subst hp
    simp
  cases hIF : tr.isFilter with
  | false =>
    by_cases hinc : cfg.fmode = FilterMode.FILTER_MODE_IN ∧ s.filter.in_count = 0
    · simp [mcount_entry_filter_check, hlen, h1, hIF, hinc.1, hinc.2] at hp
      subst hp
      simp
    · cases hD : tr.hasDepth <;> cases hOn : tr.traceOn <;> cases hOff : tr.traceOff <;>
        (simp only [mcount_entry_filter_check] at hp
         rw [if_neg hlen] at hp
         rw [if_neg (by simpa using h1)] at hp
         simp only [hIF, hD, hOn, hOff] at hp
         rw [if_neg (by simpa using hinc)] at hp
         try simp at hp
         try split_ifs at hp
         all_goals (first | (subst hp; simp) | (injection hp with hp2; subst hp2; simp)))
  | true =>
    cases hfm : tr.fmode <;> cases hD : tr.hasDepth <;> cases hOn : tr.traceOn <;>
      cases hOff : tr.traceOff <;>
      (simp only [mcount_entry_filter_check] at hp
       rw [if_neg hlen] at hp
       rw [if_neg (by simpa using h1)] at hp
       simp only [hIF, hfm, hD, hOn, hOff] at hp
       try simp at hp
       try split_ifs at hp
       all_goals (first | (subst hp; simp) | (injection hp with hp2; subst hp2; simp)))

/-! ### C8: cygprof push/pop discipline -/

theorem cygprof_exit_len (cfg : Config) (t2 : Nat) (s : MState)
    (h : mcount_should_stop s = false) :
    (cygprof_exit cfg t2 s).rstack.length = s.rstack.length - 1 := by
  have hex : ∀ j rv st, (mcount_exit_filter_record cfg j rv st).1.rstack.length
      = st.rstack.length :=
    fun j rv st => (mcount_exit_filter_record_env cfg j rv st).1
  by_cases hnr : (s.rstack.getD (s.rstack.length - 1) default).flags &&&
      MCOUNT_FL_NORECORD = 0 <;>
    simp only [List.getD_eq_getElem?_getD] at hnr <;>
    simp [cygprof_exit, h, hnr, hex, List.length_set]

theorem entry_mark_norecord (cfg : Config) (tr : FtraceTrigger) (f : FilterSt)
    (fr0 : McountRetStack) (h2 : fr0.flags = MCOUNT_FL_NORECORD) :
    (entry_record_mark cfg tr f fr0).flags &&& MCOUNT_FL_NORECORD =
      MCOUNT_FL_NORECORD ∧
    (entry_record_mark cfg tr f fr0).start_time = fr0.start_time := by
  simp only [entry_record_mark]
  split_ifs <;> simp [h2, MCOUNT_FL_NORECORD, MCOUNT_FL_FILTERED,
    MCOUNT_FL_NOTRACE, MCOUNT_FL_RETVAL, MCOUNT_FL_TRACE] <;> decide


theorem cent_exit_len (cfg : Config) (tr : FtraceTrigger) (j t2 : Nat)
    (s2 : MState) (hf : s2.finished = false) (hg : s2.guard = false) :
    (cygprof_exit cfg t2 (mcount_entry_filter_record cfg tr j s2)).rstack.length =
      s2.rstack.length - 1 := by
  have e1 := (mcount_entry_filter_record_env cfg tr j s2).1
  have e3 := (mcount_entry_filter_record_env cfg tr j s2).2.2.1
  have e4 := (mcount_entry_filter_record_env cfg tr j s2).2.2.2
  rw [cygprof_exit_len cfg t2 (mcount_entry_filter_record cfg tr j s2)
    (by simp [mcount_should_stop, e3, e4, hf, hg]), e1]

theorem entry_mark_nr_false (cfg : Config) (tr : FtraceTrigger) (f : FilterSt)
    (fr0 : McountRetStack) (h2 : fr0.flags = MCOUNT_FL_NORECORD) :
    ((entry_record_mark cfg tr f fr0).flags &&& MCOUNT_FL_NORECORD = 0) = False := by
  have h := (entry_mark_norecord cfg tr f fr0 h2).1
  simp only [MCOUNT_FL_NORECORD] at h ⊢
  simp [h]

set_option maxHeartbeats 1000000 in
/-- C8: a cyg_profile-style entry hook that passes the recursion/stop guard
and does not abort pushes exactly one return-stack frame whatever the filter
verdict; when the verdict is FILTER_OUT the pushed frame carries the NORECORD
flag with start_time = 0; and the matching cygprof_exit pops exactly one
frame. -/
theorem c8_cygprof_push_pop (cfg : Config) (tr : FtraceTrigger)
    (t p c : Nat) (s : MState) (hstop : mcount_should_stop s = false) :
    ∀ s' rc, cygprof_entry cfg tr t p c s = some (s', rc) →
      s'.rstack.length = s.rstack.length + 1 ∧
      (chkRes cfg tr s = some FilterResult.FILTER_OUT →
        (s'.rstack.getD s.rstack.length default).flags &&& MCOUNT_FL_NORECORD =
          MCOUNT_FL_NORECORD ∧
        (s'.rstack.getD s.rstack.length default).start_time = 0) ∧
      ∀ t2, (cygprof_exit cfg t2 s').rstack.length = s.rstack.length := by
  intro s' rc h
  rcases hchk : mcount_entry_filter_check cfg tr s with _ | ⟨s1, fres⟩
  · simp [cygprof_entry, hstop, hchk] at h
  obtain ⟨hrs, hri, hfin, hgd⟩ := mcount_entry_filter_check_env cfg tr s (s1, fres) hchk
  simp only [cygprof_entry, hstop, hchk, Bool.false_eq_true, if_false,
    Option.some.injEq, Prod.mk.injEq] at h
  obtain ⟨hs', hrc⟩ := h
  subst hs'
  have hrs2 : s1.rstack = s.rstack := hrs
  have hfin2 : s1.finished = s.finished := hfin
  have hgd2 : s1.guard = s.guard := hgd
  have hsf : s.finished = false := by
    simp [mcount_should_stop] at hstop
    exact hstop.1
  have hsg : s.guard = false := by
    simp [mcount_should_stop] at hstop
    exact hstop.2
  refine ⟨?_, ?_, ?_⟩
  · rw [(mcount_entry_filter_record_env cfg tr s1.rstack.length _).1]
    simp [hrs2]
  · intro hres
    have hfres : fres = FilterResult.FILTER_OUT := by
      simpa [chkRes, hchk] using hres
    subst hfres
    rw [← hrs2]
    rw [if_neg (by decide : ¬(FilterResult.FILTER_OUT = FilterResult.FILTER_IN))]
    simp only [mcount_entry_filter_record]
    simp only [listGetDAppendRight, entry_mark_nr_false, if_false]
    have hset : ∀ (l : List McountRetStack) (x y d : McountRetStack),
        ((l ++ [x]).set l.length y).getD l.length d = y := fun l x y d =>
      listGetDSetSelf _ _ _ _ (by simp)
    simp only [hset]
    refine ⟨(entry_mark_norecord cfg tr s1.filter _ rfl).1,
      by rw [(entry_mark_norecord cfg tr s1.filter _ rfl).2]⟩
  · intro t2
    refine Eq.trans (cent_exit_len cfg tr s1.rstack.length t2 _ ?_ ?_) ?_
    · simpa using hfin2.trans hsf
    · simpa using hgd2.trans hsg
    · simp [hrs2]

/-- A config with global include-filtering off and generous stack room. -/
def cfgC8 : Config :=
  { threshold := 0, depth := 10, fmode := FilterMode.FILTER_MODE_NONE,
    rstack_max := 64, bufsize := 128 }

/-- A trigger lookup that matched nothing (cygprof witness). -/
def trC8 : FtraceTrigger :=
  { isFilter := false, fmode := FilterMode.FILTER_MODE_NONE, hasDepth := false,
    tdepth := 0, traceOn := false, traceOff := false, hasArg := false,
    hasRetval := false, hasTrace := false, hasRecover := false,
    argSize := 0, retSize := 0 }

/-- C8 witness thread state: running normally but with the remaining filter
depth exhausted, so the entry check answers FILTER_OUT. -/
def sC8 : MState :=
  { rstack := [], record_idx := 0,
    filter := { depth := 0, saved_depth := 0, in_count := 0, out_count := 0 },
    enable_cached := true,
    shmem := { buffer := [], curr := -1, seqnum := 0, losts := 0, max_buf := 0 },
    enabled := true, finished := false, guard := false, alloc := [], out := [] }

/-- The concrete cygprof_entry run of the C8 witness. -/
def centW8 : Option (MState × Int) := cygprof_entry cfgC8 trC8 5 100 200 sC8

/-- The state after the C8 witness entry hook. -/
def sC8r : MState := match centW8 with | some pr => pr.1 | none => sC8

theorem c8_cygprof_push_pop_witness :
    mcount_should_stop sC8 = false ∧
    centW8 = some (sC8r, 0) ∧
    sC8r.rstack.length = sC8.rstack.length + 1 ∧
    (sC8r.rstack.getD sC8.rstack.length default).flags &&&
      MCOUNT_FL_NORECORD = MCOUNT_FL_NORECORD ∧
    (sC8r.rstack.getD sC8.rstack.length default).start_time = 0 ∧
    (cygprof_exit cfgC8 9 sC8r).rstack.length = sC8.rstack.length := by
  have h0 : mcount_should_stop sC8 = false := by decide
  have h1 : centW8 = some (sC8r, 0) := by decide
  obtain ⟨hA, hB, hC⟩ :=
    c8_cygprof_push_pop cfgC8 trC8 5 100 200 sC8 h0 sC8r 0 h1
  exact ⟨h0, h1, hA, (hB (by decide)).1, (hB (by decide)).2, hC 9⟩

/-! ### C10: record_idx non-negativity -/

theorem mcount_entry_ri (cfg : Config) (tr : FtraceTrigger) (t p c : Nat)
    (s : MState) (h : 0 ≤ s.record_idx) :
    ∀ s' rc, mcount_entry cfg tr t p c s = some (s', rc) → 0 ≤ s'.record_idx := by
  intro s' rc hme
  by_cases hstop : mcount_should_stop s = true
  · simp [mcount_entry, hstop] at hme
    exact hme.1 ▸ h
  · rw [Bool.not_eq_true] at hstop
    rcases hchk : mcount_entry_filter_check cfg tr s with _ | ⟨s1, fres⟩
    · simp [mcount_entry, hstop, hchk] at hme
    · have hri : s1.record_idx = s.record_idx :=
        (mcount_entry_filter_check_env cfg tr s (s1, fres) hchk).2.1
      have hrec := fun (st : MState) =>
        (mcount_entry_filter_record_env cfg tr s1.rstack.length st).2.1
      simp only [mcount_entry, hstop, hchk, Bool.false_eq_true, if_false,
        Option.some.injEq, Prod.mk.injEq] at hme
      by_cases hout : fres = FilterResult.FILTER_OUT
      · subst hout
        simp only [reduceIte, Option.some.injEq, Prod.mk.injEq] at hme
        obtain ⟨h1, _⟩ := hme
        subst h1
        omega
      · rw [if_neg hout] at hme
        simp only [Option.some.injEq, Prod.mk.injEq] at hme
        obtain ⟨h1, _⟩ := hme
        have hgen : ∀ st : MState, st.record_idx = s1.record_idx →
            0 ≤ (mcount_entry_filter_record cfg tr s1.rstack.length st).record_idx := by
          intro st hst
          rcases hrec st with h2 | h2 <;> rw [h2, hst] <;> omega
        rw [← h1]
        exact hgen _ rfl

theorem cygprof_entry_ri (cfg : Config) (tr : FtraceTrigger) (t p c : Nat)
    (s : MState) (h : 0 ≤ s.record_idx) :
    ∀ s' rc, cygprof_entry cfg tr t p c s = some (s', rc) → 0 ≤ s'.record_idx := by
  intro s' rc hme
  by_cases hstop : mcount_should_stop s = true
  · simp [cygprof_entry, hstop] at hme
    exact hme.1 ▸ h
  · rw [Bool.not_eq_true] at hstop
    rcases hchk : mcount_entry_filter_check cfg tr s with _ | ⟨s1, fres⟩
    · simp [cygprof_entry, hstop, hchk] at hme
    · have hri : s1.record_idx = s.record_idx :=
        (mcount_entry_filter_check_env cfg tr s (s1, fres) hchk).2.1
      have hrec := fun (st : MState) =>
        (mcount_entry_filter_record_env cfg tr s1.rstack.length st).2.1
      simp only [cygprof_entry, hstop, hchk, Bool.false_eq_true, if_false,
        Option.some.injEq, Prod.mk.injEq] at hme
      obtain ⟨h1, _⟩ := hme
      have hgen : ∀ st : MState, st.record_idx = s1.record_idx →
          0 ≤ (mcount_entry_filter_record cfg tr s1.rstack.length st).record_idx := by
        intro st hst
        rcases hrec st with h2 | h2 <;> rw [h2, hst] <;> omega
      rw [← h1]
      exact hgen _ rfl

theorem mcount_exit_ri (cfg : Config) (t : Nat) (rv : Option Nat) (s : MState)
    (h : 0 ≤ s.record_idx) : 0 ≤ (mcount_exit cfg t rv s).1.record_idx := by
  have he := fun (st : MState) =>
    (mcount_exit_filter_record_env cfg (s.rstack.length - 1) rv st).2.2.2
  simp only [mcount_exit]
  exact he _ h

theorem cygprof_exit_ri (cfg : Config) (t : Nat) (s : MState)
    (h : 0 ≤ s.record_idx) : 0 ≤ (cygprof_exit cfg t s).record_idx := by
  by_cases hstop : mcount_should_stop s = true
  · simpa [cygprof_exit, hstop] using h
  · rw [Bool.not_eq_true] at hstop
    have he := fun (st : MState) =>
      (mcount_exit_filter_record_env cfg (s.rstack.length - 1) none st).2.2.2
    simp only [cygprof_exit, hstop, Bool.false_eq_true, if_false]
    refine he _ ?_
    rw [apply_ite MState.record_idx]
    simpa [ite_self] using h

theorem mstep_ri (cfg : Config) (e : MEvent) (s : MState)
    (h : 0 ≤ s.record_idx) : 0 ≤ (mstep cfg s e).record_idx := by
  cases e with
  | ment tr t p c =>
    simp only [mstep]
    rcases hme : mcount_entry cfg tr t p c s with _ | ⟨s', rc⟩
    · exact h
    · exact mcount_entry_ri cfg tr t p c s h s' rc hme
  | mext t rv =>
    simp only [mstep]
    exact mcount_exit_ri cfg t rv s h
  | cent tr t p c =>
    simp only [mstep]
    rcases hme : cygprof_entry cfg tr t p c s with _ | ⟨s', rc⟩
    · exact h
    · exact cygprof_entry_ri cfg tr t p c s h s' rc hme
  | cext t =>
    simp only [mstep]
    exact cygprof_exit_ri cfg t s h

theorem runEvents_ri (cfg : Config) : ∀ (evs : List MEvent) (s : MState),
    0 ≤ s.record_idx → 0 ≤ (runEvents cfg s evs).record_idx := by
  intro evs
  induction evs with
  | nil => intro s h; exact h
  | cons e rest ih =>
    intro s h
    simp only [runEvents, List.foldl_cons]
    exact ih (mstep cfg s e) (mstep_ri cfg e s h)

/-- C10: starting from a freshly prepared thread, record_idx stays
non-negative across every sequence of entry/exit events: the exit path only
decrements it when it is strictly positive and the entry path only ever
increments it. -/
theorem c10_record_idx_nonneg (cfg : Config) (e0 : Bool) (al : List Bool)
    (evs : List MEvent) :
    0 ≤ (runEvents cfg (initMState cfg e0 al) evs).record_idx := by
  refine runEvents_ri cfg evs (initMState cfg e0 al) ?_
  simp [initMState, prepare_shmem_buffer]

/-! ### C3: losts accounting on a failed forward walk -/

/-- C3 config: generous buffer, no global include filter. -/
def cfgC3 : Config :=
  { threshold := 0, depth := 10, fmode := FilterMode.FILTER_MODE_NONE,
    rstack_max := 64, bufsize := 128 }

/-- C3 ancestor frame: recordable, not yet written, still running. -/
def f0C3 : McountRetStack :=
  { depth := 0, parent_ip := 1, child_ip := 10, start_time := 1, end_time := 0,
    flags := 0, filter_depth := 0, argbuf := 0 }

/-- C3 top frame: recordable, not yet written, with a pending exit. -/
def f1C3 : McountRetStack :=
  { depth := 1, parent_ip := 10, child_ip := 11, start_time := 2, end_time := 5,
    flags := 0, filter_depth := 0, argbuf := 0 }

/-- C3 thread state: two unwritten frames, no current segment, every
segment busy RECORDING, and the next mmap doomed to fail. -/
def sC3 : MState :=
  { rstack := [f0C3, f1C3], record_idx := 2,
    filter := { depth := 8, saved_depth := 0, in_count := 0, out_count := 0 },
    enable_cached := true,
    shmem := { buffer := [⟨4, 0, []⟩], curr := -1, seqnum := 0, losts := 0,
               max_buf := 1 },
    enabled := true, finished := false, guard := false, alloc := [false],
    out := [] }

/-- When every frame below `j` is still unwritten, the backward walk of
record_trace_data reaches the bottom of the stack. -/
theorem walkLow_zero (rs : List McountRetStack) : ∀ j : Nat,
    (∀ k, k < j → (rs.getD k default).flags &&& MCOUNT_FL_WRITTEN = 0) →
    walkLow rs j = 0 := by
  intro j
  induction j with
  | zero => intro _; rfl
  | succ n ih =>
    intro h
    simp only [walkLow]
    rw [if_neg (by simpa using h n (by omega))]
    exact ih (fun k hk => h k (by omega))

/-- With frame 0 recordable, the eligible count from the bottom is at
least one. -/
theorem countElig_pos (rs : List McountRetStack) (j : Nat)
    (h0 : (rs.getD 0 default).flags &&& SKIP_FLAGS = 0) :
    1 ≤ countEligible rs 0 j := by
  have hmem : 0 ∈ (List.range' 0 (j + 1 - 0)).filter
      (fun k => (rs.getD k default).flags &&& SKIP_FLAGS = 0) := by
    rw [List.mem_filter]
    constructor
    · rw [List.mem_range'_1]
      omega
    · simpa using h0
  have := List.length_pos.mpr (List.ne_nil_of_mem hmem)
  simpa [countEligible] using this

/-- The state left by a record_ret_stack call whose rotation failed with no
current segment: losts charged once by get_new_shmem_buffer's failure path
and once more by record_ret_stack itself. -/
def rotFailState (s : MState) : MState :=
  { s with alloc := s.alloc.tail,
           shmem := { s.shmem with losts := s.shmem.losts + 1 + 1, curr := -1 } }

set_option maxHeartbeats 1000000 in
/-- C3 (amended): when the first ENTRY emission of the forward walk fails
because rotation finds no reusable segment and allocation fails, every
remaining ENTRY and the pending EXIT are dropped with the return stack,
segment ring and message stream untouched (so the frames stay unwritten and
a later exit retries them), but losts grows by the number of records
skipped plus one: the allocation-failure path and record_ret_stack each
count the same dropped record. -/
theorem c3_losts_accounting (cfg : Config) (j : Nat) (retval : Option Nat)
    (s : MState)
    (hj1 : 1 ≤ j)
    (htopw : (s.rstack.getD j default).flags &&& MCOUNT_FL_WRITTEN = 0)
    (hlow : ∀ k, k < j → (s.rstack.getD k default).flags &&& MCOUNT_FL_WRITTEN = 0)
    (h0 : (s.rstack.getD 0 default).flags &&& SKIP_FLAGS = 0)
    (hcurr : s.shmem.curr = -1)
    (hscan : scanAvail s.shmem.buffer = none)
    (halloc : s.alloc.headD true = false) :
    (record_trace_data cfg j retval s).shmem.losts =
      s.shmem.losts + countEligible s.rstack 0 j +
        (if (s.rstack.getD j default).end_time ≠ 0 then 1 else 0) + 1 ∧
    (record_trace_data cfg j retval s).rstack = s.rstack ∧
    (record_trace_data cfg j retval s).shmem.buffer = s.shmem.buffer ∧
    (record_trace_data cfg j retval s).out = s.out := by
  have hwl : walkLow s.rstack j = 0 := walkLow_zero s.rstack j hlow
  have hce : 1 ≤ countEligible s.rstack 0 j := countElig_pos s.rstack j h0
  have hrr : record_ret_stack cfg RecType.FTRACE_ENTRY 0 s =
      (rotFailState s, false) := by
    have halloc2 := halloc
    simp only [List.headD_eq_head?_getD] at halloc2
    simp [record_ret_stack, rotFailState, hcurr, get_new_shmem_buffer, hscan,
      halloc2]
  obtain ⟨j1, rfl⟩ : ∃ j1, j = j1 + 1 := ⟨j - 1, by omega⟩
  simp only [record_trace_data, htopw, hwl, reduceIte, Nat.add_sub_cancel,
    List.range'_succ, emitEntries, h0, hrr]
  refine ⟨?_, rfl, rfl, rfl⟩
  simp only [rotFailState]
  by_cases het : (s.rstack[j1 + 1]?.getD default).end_time = 0 <;>
    simp [het, List.getD_eq_getElem?_getD] <;> omega

/-- C3 counterexample: three records are skipped (two ENTRYs and the
pending EXIT) yet losts grows by four, refuting the claimed increment of
exactly the number skipped; frames and buffers are indeed untouched. -/
theorem c3_counterexample :
    countEligible sC3.rstack 0 1 +
        (if (sC3.rstack.getD 1 default).end_time ≠ 0 then 1 else 0) = 3 ∧
    (record_trace_data cfgC3 1 none sC3).shmem.losts = sC3.shmem.losts + 3 + 1 ∧
    (record_trace_data cfgC3 1 none sC3).rstack = sC3.rstack ∧
    (record_trace_data cfgC3 1 none sC3).shmem.buffer = sC3.shmem.buffer ∧
    (record_trace_data cfgC3 1 none sC3).out = sC3.out := by
  refine ⟨by decide, by decide, by decide, by decide, by decide⟩

theorem c3_losts_accounting_witness :
    (record_trace_data cfgC3 1 none sC3).shmem.losts = 4 ∧
    (record_trace_data cfgC3 1 none sC3).rstack = sC3.rstack ∧
    (record_trace_data cfgC3 1 none sC3).shmem.buffer = sC3.shmem.buffer ∧
    (record_trace_data cfgC3 1 none sC3).out = sC3.out := by
  have h := c3_losts_accounting cfgC3 1 none sC3 (by decide) (by decide)
    (by decide) (by decide) (by decide) (by decide) (by decide)
  exact ⟨h.1.trans (by decide), h.2.1, h.2.2.1, h.2.2.2⟩
